import Mathlib

set_option autoImplicit false

namespace CedraIndexer

/-!
Shallow embedding of the cedra-indexer-processors-v2 current-state
materialisation code: the bounded-retry resolver helpers, the per-transaction
current-state deduplication maps, the delete-as-zero-row decoders, the coin
supply filter and the parquet user-transaction extractor.

External-crate values (SDK string helpers, serde deserialisation, BigDecimal
parsing) are abstracted into explicit function parameters; `BigDecimal` is
modelled as `Rat`, timestamps as `Int`.  Database reads are modelled as
attempt-indexed outcomes, `none` standing for a diesel `Err` (which includes
`NotFound`).  Panics and `anyhow` errors are both modelled by an outer
`Option` layer being `none`.
-/

/-- Observable effects of the resolver code: a numbered database query
attempt (1-based, the value of the Rust counter `tried` when the query is
issued), a sleep of `query_retry_delay_ms` milliseconds between consecutive
failed attempts, and log records emitted by callers. -/
inductive TraceEvent : Type where
  | attempt (i : Nat)
  | pause (ms : Nat)
  | logError
  | logWarn
  deriving DecidableEq, Repr

/-- Row type of the diesel query struct `CurrentDelegatorBalanceQuery`
(`delegator_balances.rs`). -/
structure CurrentDelegatorBalanceQuery where
  delegator_address : String
  pool_address : String
  pool_type : String
  table_handle : String
  last_transaction_version : Int
  inserted_at : Int
  shares : Rat
  parent_table_handle : String
  deriving DecidableEq, Repr

/-- Row type of the diesel query struct `CurrentCollectionDataQuery`
(`collection_datas.rs`). -/
structure CurrentCollectionDataQuery where
  collection_data_id_hash : String
  creator_address : String
  collection_name : String
  description : String
  metadata_uri : String
  supply : Rat
  maximum : Rat
  maximum_mutable : Bool
  uri_mutable : Bool
  description_mutable : Bool
  last_transaction_version : Int
  inserted_at : Int
  table_handle : String
  last_transaction_timestamp : Int
  deriving DecidableEq, Repr

/-- Row type of the diesel query struct `CurrentDelegatedVoterQuery`
(`current_delegated_voter.rs`). -/
structure CurrentDelegatedVoterQuery where
  delegation_pool_address : String
  delegator_address : String
  table_handle : Option String
  voter : Option String
  pending_voter : Option String
  last_transaction_version : Int
  last_transaction_timestamp : Int
  inserted_at : Int
  deriving DecidableEq, Repr

/-- A database connection, modelled by the outcome each single-row query
would produce on a given attempt: `none` is a failed read (diesel `Err`,
including `NotFound`), `some row` a successful read.  The `Nat` argument is
the value of the Rust retry counter `tried` when the query is issued, so a
connection may fail transiently on early attempts and succeed later. -/
structure DbConn where
  get_by_inactive_share_handle : Nat → String → Option CurrentDelegatorBalanceQuery
  get_collection_by_table_handle : Nat → String → Option CurrentCollectionDataQuery
  get_voter_by_table_handle : Nat → String → Option CurrentDelegatedVoterQuery
  get_voter_by_pk : Nat → String → String → Option CurrentDelegatedVoterQuery

/-- The retry loop shared verbatim by the resolver lookup helpers:
`let mut tried = 0; while tried < query_retries { tried += 1; match query {
Ok => return Ok, Err => if tried < query_retries { sleep(delay) } } }` and an
`Err` after the loop.  `step i` is the outcome of the query issued with
`tried = i`; the first component records the attempts, pauses and their
order, the second is the returned value (`none` = the final `Err`). -/
def retryLoop {α : Type} (step : Nat → Option α)
    (query_retries query_retry_delay_ms tried : Nat) :
    List TraceEvent × Option α :=
  if _h : tried < query_retries then
    match step (tried + 1) with
    | some v => ([TraceEvent.attempt (tried + 1)], some v)
    | none =>
      let rest := retryLoop step query_retries query_retry_delay_ms (tried + 1)
      if tried + 1 < query_retries then
        (TraceEvent.attempt (tried + 1) :: TraceEvent.pause query_retry_delay_ms :: rest.1,
          rest.2)
      else
        (TraceEvent.attempt (tried + 1) :: rest.1, rest.2)
  else ([], none)
termination_by query_retries - tried
decreasing_by simp_wf; omega

/-- `CurrentDelegatorBalance::get_staking_pool_from_inactive_share_handle`
(`delegator_balances.rs`): bounded-retry read of
`current_delegator_balances` by `parent_table_handle`, returning the
`pool_address` of the row on success. -/
def CurrentDelegatorBalance.get_staking_pool_from_inactive_share_handle
    (conn : DbConn) (table_handle : String)
    (query_retries query_retry_delay_ms : Nat) : List TraceEvent × Option String :=
  retryLoop
    (fun i => (conn.get_by_inactive_share_handle i table_handle).map
      (fun r => r.pool_address))
    query_retries query_retry_delay_ms 0

/-- `CollectionData::get_collection_creator` (`collection_datas.rs`):
bounded-retry read of `current_collection_datas` by `table_handle`,
returning the row's `creator_address` on success. -/
def CollectionData.get_collection_creator (conn : DbConn) (table_handle : String)
    (query_retries query_retry_delay_ms : Nat) : List TraceEvent × Option String :=
  retryLoop
    (fun i => (conn.get_collection_by_table_handle i table_handle).map
      (fun r => r.creator_address))
    query_retries query_retry_delay_ms 0

/-- `CurrentDelegatedVoter::get_delegation_pool_address_by_table_handle`
(`current_delegated_voter.rs`): bounded-retry read of
`current_delegated_voter` by `table_handle`, returning the row's
`delegation_pool_address` on success. -/
def CurrentDelegatedVoter.get_delegation_pool_address_by_table_handle
    (conn : DbConn) (table_handle : String)
    (query_retries query_retry_delay_ms : Nat) : List TraceEvent × Option String :=
  retryLoop
    (fun i => (conn.get_voter_by_table_handle i table_handle).map
      (fun r => r.delegation_pool_address))
    query_retries query_retry_delay_ms 0

/-- `CurrentDelegatedVoter::get_existence_by_pk`
(`current_delegated_voter.rs`): same retry loop, returning `true` as soon as
one read succeeds and `false` once the attempts are exhausted. -/
def CurrentDelegatedVoter.get_existence_by_pk (conn : DbConn)
    (delegator_address delegation_pool_address : String)
    (query_retries query_retry_delay_ms : Nat) : List TraceEvent × Bool :=
  let r := retryLoop
    (fun i => conn.get_voter_by_pk i delegator_address delegation_pool_address)
    query_retries query_retry_delay_ms 0
  (r.1, r.2.isSome)

/-- Interspersing a separator into a list whose tail is nonempty. -/
theorem intersperse_cons_of_ne_nil {α : Type} (s a : α) (l : List α) (h : l ≠ []) :
    List.intersperse s (a :: l) = a :: s :: List.intersperse s l := by
  cases l with
  | nil => exact absurd rfl h
  | cons b t => rfl

/-- Peeling one element off an interspersed enumeration. -/
theorem intersperse_map_range_succ {α : Type} (s : α) (f : Nat → α) (m : Nat) :
    List.intersperse s ((List.range (m + 1 + 1)).map f) =
      f 0 :: s :: List.intersperse s ((List.range (m + 1)).map (fun j => f (j + 1))) := by
  rw [List.range_succ_eq_map, List.map_cons, intersperse_cons_of_ne_nil, List.map_map]
  · rfl
  · simp [List.range_succ_eq_map]

/-- On a connection that fails every attempt, the retry loop issues the
attempts `tried+1, …, n` in order with exactly one fixed-length pause
between consecutive attempts, no pause after the last one, and returns the
error. -/
theorem retryLoop_allFail {α : Type} (step : Nat → Option α)
    (hfail : ∀ i, step i = none) :
    ∀ (k tried n d : Nat), n - tried = k →
      retryLoop step n d tried =
        (List.intersperse (TraceEvent.pause d)
          ((List.range k).map (fun j => TraceEvent.attempt (tried + 1 + j))), none) := by
  intro k
  induction k with
  | zero =>
    intro tried n d hk
    rw [retryLoop]
    have hnot : ¬ tried < n := by omega
    simp [hnot]
  | succ k ih =>
    intro tried n d hk
    have hlt : tried < n := by omega
    rw [retryLoop]
    simp only [hlt, dite_true, hfail]
    have hrest := ih (tried + 1) n d (by omega)
    cases k with
    | zero =>
      have hnot : ¬ tried + 1 < n := by omega
      simp [hnot, hrest, List.range_succ_eq_map]
    | succ m =>
      have hlt2 : tried + 1 < n := by omega
      simp only [hlt2, if_true, hrest]
      rw [intersperse_map_range_succ (TraceEvent.pause d)
        (fun j => TraceEvent.attempt (tried + 1 + j)) m]
      have harg : (fun j => TraceEvent.attempt (tried + 1 + (j + 1)))
          = (fun j => TraceEvent.attempt (tried + 1 + 1 + j)) := by
        funext j
        congr 1
        omega
      rw [harg]

/-- Specialisation to `tried = 0`, the entry point used by every helper. -/
theorem retryLoop_allFail_zero {α : Type} (step : Nat → Option α)
    (hfail : ∀ i, step i = none) (n d : Nat) :
    retryLoop step n d 0 =
      (List.intersperse (TraceEvent.pause d)
        ((List.range n).map (fun j => TraceEvent.attempt (j + 1))), none) := by
  have h := retryLoop_allFail step hfail n 0 n d (by omega)
  have harg : (fun j => TraceEvent.attempt (0 + 1 + j))
      = (fun j => TraceEvent.attempt (j + 1)) := by
    funext j
    congr 1
    omega
  rw [h, harg]

/-- C1: with `query_retries = n ≥ 1` and an underlying query failing on every
attempt, each of the three cross-batch resolver lookup helpers issues exactly
the attempts `1, …, n` in order, with a single fixed `query_retry_delay_ms`
pause between consecutive attempts and none after the last, and then returns
an error — it never retries indefinitely. -/
theorem resolver_lookup_bounded_retry (conn : DbConn) (th : String) (n d : Nat)
    (_hn : 1 ≤ n)
    (h1 : ∀ i, conn.get_by_inactive_share_handle i th = none)
    (h2 : ∀ i, conn.get_collection_by_table_handle i th = none)
    (h3 : ∀ i, conn.get_voter_by_table_handle i th = none) :
    CurrentDelegatorBalance.get_staking_pool_from_inactive_share_handle conn th n d =
      (List.intersperse (TraceEvent.pause d)
        ((List.range n).map (fun j => TraceEvent.attempt (j + 1))), none) ∧
    CollectionData.get_collection_creator conn th n d =
      (List.intersperse (TraceEvent.pause d)
        ((List.range n).map (fun j => TraceEvent.attempt (j + 1))), none) ∧
    CurrentDelegatedVoter.get_delegation_pool_address_by_table_handle conn th n d =
      (List.intersperse (TraceEvent.pause d)
        ((List.range n).map (fun j => TraceEvent.attempt (j + 1))), none) := by
  refine ⟨?_, ?_, ?_⟩
  · exact retryLoop_allFail_zero _ (fun i => by rw [h1 i]; rfl) n d
  · exact retryLoop_allFail_zero _ (fun i => by rw [h2 i]; rfl) n d
  · exact retryLoop_allFail_zero _ (fun i => by rw [h3 i]; rfl) n d

/-- A connection on which every read fails on every attempt. -/
def connAllFail : DbConn where
  get_by_inactive_share_handle := fun _ _ => none
  get_collection_by_table_handle := fun _ _ => none
  get_voter_by_table_handle := fun _ _ => none
  get_voter_by_pk := fun _ _ _ => none

/-- Witness for `resolver_lookup_bounded_retry` at `query_retries = 3`,
`query_retry_delay_ms = 7`. -/
theorem resolver_lookup_bounded_retry_witness :
    CurrentDelegatorBalance.get_staking_pool_from_inactive_share_handle connAllFail "0xabc" 3 7 =
      ([TraceEvent.attempt 1, TraceEvent.pause 7, TraceEvent.attempt 2, TraceEvent.pause 7,
        TraceEvent.attempt 3], none) := by
  have h := (resolver_lookup_bounded_retry connAllFail "0xabc" 3 7 (by decide)
    (fun _ => rfl) (fun _ => rfl) (fun _ => rfl)).1
  rw [h]
  decide

/-- C8: with `query_retries = 0` the retry helpers make no attempt at all
(empty trace: no query, no pause) and fail immediately, for every connection
and every input: the two lookup helpers return an error and
`get_existence_by_pk` returns `false`. -/
theorem resolver_zero_retries_no_query (conn : DbConn) (th da pa : String) (d : Nat) :
    CurrentDelegatorBalance.get_staking_pool_from_inactive_share_handle conn th 0 d
      = ([], none) ∧
    CurrentDelegatedVoter.get_delegation_pool_address_by_table_handle conn th 0 d
      = ([], none) ∧
    CurrentDelegatedVoter.get_existence_by_pk conn da pa 0 d = ([], false) := by
  refine ⟨?_, ?_, ?_⟩
  · rw [CurrentDelegatorBalance.get_staking_pool_from_inactive_share_handle, retryLoop]
    simp
  · rw [CurrentDelegatedVoter.get_delegation_pool_address_by_table_handle, retryLoop]
    simp
  · rw [CurrentDelegatedVoter.get_existence_by_pk, retryLoop]
    simp

/-- Minimal JSON values as consumed by the embedded code: `token_properties`
is either an opaque decoded document or `Value::Null` (substituted on
delete). -/
inductive JsonValue : Type where
  | null
  | val (s : String)
  deriving DecidableEq, Repr

/-- External SDK helpers (crate `cedra-indexer-processor-sdk`, outside this
repository), abstracted as unconstrained functions:  address normalisation,
string hashing, truncation, `BigDecimal` parsing of a decoded JSON string,
timestamp conversion (`parse_timestamp(ts, version).naive_utc()`), and the
constant `CEDRA_COIN_TYPE_STR`. -/
structure SdkEnv where
  standardize_address : String → String
  hash_str : String → String
  truncate_str : String → Nat → String
  parse_bigdecimal : String → Option Rat
  parse_timestamp : Int → Int → Int
  cedra_coin_type_str : String

/-- `ensure_not_negative` (SDK `utils::convert`): clamp a negative amount to
zero. -/
def ensure_not_negative (q : Rat) : Rat := if q < 0 then 0 else q

/-- Raw payloads and Move type strings of a table item (`TableItemData`
protobuf message). -/
structure TableItemData where
  key : String
  key_type : String
  value : String
  value_type : String
  deriving DecidableEq, Repr

/-- Protobuf `WriteTableItem`, together with the decoded key/value that
`TableItem::from_write_table_item` and `PostgresTableItem::from`
(`table_items.rs`, not under `src/`) expose: `decoded_key` is the JSON
decoding of `key`, `decoded_value` the JSON decoding of `value` when
present. -/
structure WriteTableItem where
  handle : String
  key : String
  data : Option TableItemData
  decoded_key : String
  decoded_value : Option String
  deriving DecidableEq, Repr

/-- Protobuf `DeleteTableItem`. -/
structure DeleteTableItem where
  handle : String
  key : String
  data : Option TableItemData
  deriving DecidableEq, Repr

/-- Protobuf `WriteResource`; only the fields the embedded code reads. -/
structure WriteResource where
  type_str : String
  data : String
  deriving DecidableEq, Repr

/-- Protobuf `write_set_change::Change` variants relevant here; the
remaining variants (module writes, resource deletes, …) are collapsed into
`OtherChange`. -/
inductive Change : Type where
  | WriteResource (r : WriteResource)
  | WriteTableItem (w : WriteTableItem)
  | DeleteTableItem (d : DeleteTableItem)
  | OtherChange
  deriving DecidableEq, Repr

/-- Protobuf `WriteSetChange` (the `change` oneof is optional). -/
structure WriteSetChange where
  change : Option Change
  deriving DecidableEq, Repr

/-- Protobuf `TransactionInfo`; only `changes` is read. -/
structure TransactionInfo where
  changes : List WriteSetChange
  deriving DecidableEq, Repr

/-- Protobuf `transaction::TxnData` variants, collapsed to what the embedded
code distinguishes: user transactions versus everything else. -/
inductive TxnData : Type where
  | User
  | Genesis
  | OtherTxn
  deriving DecidableEq, Repr

/-- Protobuf `Transaction`; timestamps are already-converted integers. -/
structure Transaction where
  version : Nat
  timestamp : Option Int
  info : Option TransactionInfo
  txn_data : Option TxnData
  deriving DecidableEq, Repr

/-- `AHashMap`, modelled as an association list whose head holds the most
recent insert (so `lookup` returns the latest binding for a key). -/
structure AssocMap (κ α : Type) : Type where
  entries : List (κ × α)
  deriving DecidableEq, Repr

/-- First binding for `k` in an entry list. -/
def assocFind {κ α : Type} [DecidableEq κ] (k : κ) : List (κ × α) → Option α
  | [] => none
  | (k2, v) :: rest => if k2 = k then some v else assocFind k rest

/-- The empty map. -/
def AssocMap.empty {κ α : Type} : AssocMap κ α := ⟨[]⟩

/-- `AHashMap::insert`: unconditionally overwrite the binding for `k`. -/
def AssocMap.insert {κ α : Type} (m : AssocMap κ α) (k : κ) (v : α) : AssocMap κ α :=
  ⟨(k, v) :: m.entries⟩

/-- `AHashMap::get`. -/
def AssocMap.lookup {κ α : Type} [DecidableEq κ] (m : AssocMap κ α) (k : κ) : Option α :=
  assocFind k m.entries

/-- `AHashMap::extend`: every binding of `other` overwrites `m`. -/
def AssocMap.extend {κ α : Type} (m other : AssocMap κ α) : AssocMap κ α :=
  ⟨other.entries ++ m.entries⟩

/-- Left-biased choice on `Option`, used to state last-write-wins. -/
def orElseO {α : Type} (a b : Option α) : Option α :=
  match a with
  | some v => some v
  | none => b

/-- The last element of a list whose key is `k` (the "delta seen last"). -/
def lastWith {α β : Type} [DecidableEq β] (key : α → β) (k : β) : List α → Option α
  | [] => none
  | a :: rest => orElseO (lastWith key k rest) (if key a = k then some a else none)

theorem orElseO_none_right {α : Type} (a : Option α) : orElseO a none = a := by
  cases a <;> rfl

theorem orElseO_assoc {α : Type} (a b c : Option α) :
    orElseO (orElseO a b) c = orElseO a (orElseO b c) := by
  cases a <;> rfl

theorem AssocMap.lookup_empty {κ α : Type} [DecidableEq κ] (k : κ) :
    AssocMap.lookup (AssocMap.empty : AssocMap κ α) k = none := rfl

theorem AssocMap.lookup_insert {κ α : Type} [DecidableEq κ]
    (m : AssocMap κ α) (k k2 : κ) (v : α) :
    AssocMap.lookup (AssocMap.insert m k v) k2
      = if k = k2 then some v else AssocMap.lookup m k2 := rfl

theorem assocFind_append {κ α : Type} [DecidableEq κ] (k : κ) (l1 l2 : List (κ × α)) :
    assocFind k (l1 ++ l2) = orElseO (assocFind k l1) (assocFind k l2) := by
  induction l1 with
  | nil => rfl
  | cons p rest ih =>
    obtain ⟨k2, v⟩ := p
    by_cases hk : k2 = k
    · simp [assocFind, hk, orElseO]
    · simp [assocFind, hk, ih]

theorem AssocMap.lookup_extend {κ α : Type} [DecidableEq κ]
    (m other : AssocMap κ α) (k : κ) :
    AssocMap.lookup (AssocMap.extend m other) k
      = orElseO (AssocMap.lookup other k) (AssocMap.lookup m k) :=
  assocFind_append k other.entries m.entries

/-- Modelled from the spec: `DelegatorPoolBalanceMetadata`
(`delegator_pools.rs` is not under `src/`), with the fields
`delegator_balances.rs` reads: the owning staking pool address, the share
scaling factor, and the active/inactive share-table handles. -/
structure DelegatorPoolBalanceMetadata where
  staking_pool_address : String
  scaling_factor : Rat
  active_share_table_handle : String
  inactive_share_table_handle : String
  deriving DecidableEq, Repr

/-- Modelled from the spec: `PoolBalanceMetadata` (`delegator_pools.rs`, not
under `src/`), with the fields `delegator_balances.rs` reads. -/
structure PoolBalanceMetadata where
  scaling_factor : Rat
  parent_table_handle : String
  shares_table_handle : String
  deriving DecidableEq, Repr

abbrev TableHandle := String
abbrev Address := String
abbrev ShareToStakingPoolMapping := AssocMap TableHandle DelegatorPoolBalanceMetadata
abbrev ShareToPoolMapping := AssocMap TableHandle PoolBalanceMetadata
abbrev CurrentDelegatorBalancePK := Address × Address × String

/-- `current_delegator_balances` current-state row (`delegator_balances.rs`). -/
structure CurrentDelegatorBalance where
  delegator_address : String
  pool_address : String
  pool_type : String
  table_handle : String
  last_transaction_version : Int
  shares : Rat
  parent_table_handle : String
  block_timestamp : Int
  deriving DecidableEq, Repr

/-- `delegator_balances` history row (`delegator_balances.rs`). -/
structure DelegatorBalance where
  transaction_version : Int
  write_set_change_index : Int
  delegator_address : String
  pool_address : String
  pool_type : String
  table_handle : String
  shares : Rat
  parent_table_handle : String
  block_timestamp : Int
  deriving DecidableEq, Repr

abbrev CurrentDelegatorBalanceMap := AssocMap CurrentDelegatorBalancePK CurrentDelegatorBalance

/-- The primary key under which `from_transaction` dedupes a
current-delegator-balance delta. -/
def CurrentDelegatorBalance.pk (cb : CurrentDelegatorBalance) : CurrentDelegatorBalancePK :=
  (cb.delegator_address, cb.pool_address, cb.pool_type)

/-- Modelled from the spec: the two `DelegatorPool` metadata decoders from
`delegator_pools.rs` (not under `src/`), abstracted as arbitrary decoders;
the outer `Option` is the `anyhow::Result` layer, the inner `Option` is
"this change is not delegation-pool metadata". -/
structure DelegatorPoolEnv where
  get_delegated_pool_metadata_from_write_resource :
    WriteResource → Int → Int → Option (Option DelegatorPoolBalanceMetadata)
  get_inactive_pool_metadata_from_write_table_item :
    WriteTableItem → Int → Option (Option PoolBalanceMetadata)

/-- `CurrentDelegatorBalance::get_active_pool_to_staking_pool_mapping`. -/
def CurrentDelegatorBalance.get_active_pool_to_staking_pool_mapping
    (denv : DelegatorPoolEnv) (write_resource : WriteResource)
    (txn_version block_timestamp : Int) : Option (Option ShareToStakingPoolMapping) :=
  match denv.get_delegated_pool_metadata_from_write_resource write_resource txn_version
      block_timestamp with
  | none => none
  | some none => some none
  | some (some balance) => some (some ⟨[(balance.active_share_table_handle, balance)]⟩)

/-- `CurrentDelegatorBalance::get_inactive_pool_to_staking_pool_mapping`. -/
def CurrentDelegatorBalance.get_inactive_pool_to_staking_pool_mapping
    (denv : DelegatorPoolEnv) (write_resource : WriteResource)
    (txn_version block_timestamp : Int) : Option (Option ShareToStakingPoolMapping) :=
  match denv.get_delegated_pool_metadata_from_write_resource write_resource txn_version
      block_timestamp with
  | none => none
  | some none => some none
  | some (some balance) => some (some ⟨[(balance.inactive_share_table_handle, balance)]⟩)

/-- `CurrentDelegatorBalance::get_inactive_share_to_pool_mapping`. -/
def CurrentDelegatorBalance.get_inactive_share_to_pool_mapping
    (denv : DelegatorPoolEnv) (write_table_item : WriteTableItem)
    (txn_version : Int) : Option (Option ShareToPoolMapping) :=
  match denv.get_inactive_pool_metadata_from_write_table_item write_table_item
      txn_version with
  | none => none
  | some none => some none
  | some (some balance) => some (some ⟨[(balance.shares_table_handle, balance)]⟩)

/-- `CurrentDelegatorBalance::get_active_share_from_write_table_item`.  The
outer `Option` is the `anyhow::Result` layer together with panics (the
`unwrap` of the decoded value and the failed `BigDecimal` parse); the inner
`Option` is `Ok(None)` for untracked table handles. -/
def CurrentDelegatorBalance.get_active_share_from_write_table_item (env : SdkEnv)
    (write_table_item : WriteTableItem) (txn_version write_set_change_index : Int)
    (active_pool_to_staking_pool : ShareToStakingPoolMapping) (block_timestamp : Int) :
    Option (Option (DelegatorBalance × CurrentDelegatorBalance)) :=
  let table_handle := env.standardize_address write_table_item.handle
  match AssocMap.lookup active_pool_to_staking_pool table_handle with
  | none => some none
  | some pool_balance =>
    let pool_address := pool_balance.staking_pool_address
    let delegator_address := env.standardize_address write_table_item.key
    match write_table_item.decoded_value with
    | none => none
    | some raw =>
      match env.parse_bigdecimal raw with
      | none => none
      | some shares0 =>
        let shares := shares0 / pool_balance.scaling_factor
        some (some
          ({ transaction_version := txn_version
             write_set_change_index := write_set_change_index
             delegator_address := delegator_address
             pool_address := pool_address
             pool_type := "active_shares"
             table_handle := table_handle
             shares := shares
             parent_table_handle := table_handle
             block_timestamp := block_timestamp },
           { delegator_address := delegator_address
             pool_address := pool_address
             pool_type := "active_shares"
             table_handle := table_handle
             last_transaction_version := txn_version
             shares := shares
             parent_table_handle := table_handle
             block_timestamp := block_timestamp }))

/-- `CurrentDelegatorBalance::get_inactive_share_from_write_table_item`.
On lookup exhaustion it logs an error and returns `Ok(None)` (drops the
row). -/
def CurrentDelegatorBalance.get_inactive_share_from_write_table_item (env : SdkEnv)
    (write_table_item : WriteTableItem) (txn_version write_set_change_index : Int)
    (inactive_pool_to_staking_pool : ShareToStakingPoolMapping)
    (inactive_share_to_pool : ShareToPoolMapping) (conn : DbConn)
    (query_retries query_retry_delay_ms : Nat) (block_timestamp : Int) :
    List TraceEvent × Option (Option (DelegatorBalance × CurrentDelegatorBalance)) :=
  let table_handle := env.standardize_address write_table_item.handle
  match AssocMap.lookup inactive_share_to_pool table_handle with
  | none => ([], some none)
  | some pool_balance =>
    let inactive_pool_handle := pool_balance.parent_table_handle
    let finish : String → Option (Option (DelegatorBalance × CurrentDelegatorBalance)) :=
      fun pool_address =>
        let delegator_address := env.standardize_address write_table_item.key
        match write_table_item.decoded_value with
        | none => none
        | some raw =>
          match env.parse_bigdecimal raw with
          | none => none
          | some shares0 =>
            let shares := shares0 / pool_balance.scaling_factor
            some (some
              ({ transaction_version := txn_version
                 write_set_change_index := write_set_change_index
                 delegator_address := delegator_address
                 pool_address := pool_address
                 pool_type := "inactive_shares"
                 table_handle := table_handle
                 shares := shares
                 parent_table_handle := inactive_pool_handle
                 block_timestamp := block_timestamp },
               { delegator_address := delegator_address
                 pool_address := pool_address
                 pool_type := "inactive_shares"
                 table_handle := table_handle
                 last_transaction_version := txn_version
                 shares := shares
                 parent_table_handle := inactive_pool_handle
                 block_timestamp := block_timestamp }))
    match (AssocMap.lookup inactive_pool_to_staking_pool inactive_pool_handle).map
        (fun metadata => metadata.staking_pool_address) with
    | some pool_address => ([], finish pool_address)
    | none =>
      let r := CurrentDelegatorBalance.get_staking_pool_from_inactive_share_handle conn
        inactive_pool_handle query_retries query_retry_delay_ms
      match r.2 with
      | some pool_address => (r.1, finish pool_address)
      | none => (r.1 ++ [TraceEvent.logError], some none)

/-- `CurrentDelegatorBalance::get_active_share_from_delete_table_item`:
a tracked delete still produces a delta, with `shares` set to zero. -/
def CurrentDelegatorBalance.get_active_share_from_delete_table_item (env : SdkEnv)
    (delete_table_item : DeleteTableItem) (txn_version write_set_change_index : Int)
    (active_pool_to_staking_pool : ShareToStakingPoolMapping) (block_timestamp : Int) :
    Option (Option (DelegatorBalance × CurrentDelegatorBalance)) :=
  let table_handle := env.standardize_address delete_table_item.handle
  match AssocMap.lookup active_pool_to_staking_pool table_handle with
  | none => some none
  | some pool_balance =>
    let delegator_address := env.standardize_address delete_table_item.key
    some (some
      ({ transaction_version := txn_version
         write_set_change_index := write_set_change_index
         delegator_address := delegator_address
         pool_address := pool_balance.staking_pool_address
         pool_type := "active_shares"
         table_handle := table_handle
         shares := 0
         parent_table_handle := table_handle
         block_timestamp := block_timestamp },
       { delegator_address := delegator_address
         pool_address := pool_balance.staking_pool_address
         pool_type := "active_shares"
         table_handle := table_handle
         last_transaction_version := txn_version
         shares := 0
         parent_table_handle := table_handle
         block_timestamp := block_timestamp }))

/-- `CurrentDelegatorBalance::get_inactive_share_from_delete_table_item`:
zero-share delta; a failed pool lookup is propagated as an error
(`.context(…)?`), not logged-and-dropped. -/
def CurrentDelegatorBalance.get_inactive_share_from_delete_table_item (env : SdkEnv)
    (delete_table_item : DeleteTableItem) (txn_version write_set_change_index : Int)
    (inactive_pool_to_staking_pool : ShareToStakingPoolMapping)
    (inactive_share_to_pool : ShareToPoolMapping) (conn : DbConn)
    (query_retries query_retry_delay_ms : Nat) (block_timestamp : Int) :
    List TraceEvent × Option (Option (DelegatorBalance × CurrentDelegatorBalance)) :=
  let table_handle := env.standardize_address delete_table_item.handle
  match AssocMap.lookup inactive_share_to_pool table_handle with
  | none => ([], some none)
  | some pool_balance =>
    let inactive_pool_handle := pool_balance.parent_table_handle
    let finish : String → Option (Option (DelegatorBalance × CurrentDelegatorBalance)) :=
      fun pool_address =>
        let delegator_address := env.standardize_address delete_table_item.key
        some (some
          ({ transaction_version := txn_version
             write_set_change_index := write_set_change_index
             delegator_address := delegator_address
             pool_address := pool_address
             pool_type := "inactive_shares"
             table_handle := table_handle
             shares := 0
             parent_table_handle := inactive_pool_handle
             block_timestamp := block_timestamp },
           { delegator_address := delegator_address
             pool_address := pool_address
             pool_type := "inactive_shares"
             table_handle := table_handle
             last_transaction_version := txn_version
             shares := 0
             parent_table_handle := table_handle
             block_timestamp := block_timestamp }))
    match (AssocMap.lookup inactive_pool_to_staking_pool inactive_pool_handle).map
        (fun metadata => metadata.staking_pool_address) with
    | some pool_address => ([], finish pool_address)
    | none =>
      let r := CurrentDelegatorBalance.get_staking_pool_from_inactive_share_handle conn
        inactive_pool_handle query_retries query_retry_delay_ms
      match r.2 with
      | some pool_address => (r.1, finish pool_address)
      | none => (r.1, none)

/-- First pass of `CurrentDelegatorBalance::from_transaction`: accumulate
the inactive-pool → staking-pool and inactive-share → pool mappings over the
write-set changes; every `.unwrap()` panic is `none`. -/
def CurrentDelegatorBalance.first_pass (denv : DelegatorPoolEnv)
    (txn_version txn_timestamp : Int) :
    List WriteSetChange → ShareToStakingPoolMapping → ShareToPoolMapping →
      Option (ShareToStakingPoolMapping × ShareToPoolMapping)
  | [], acc1, acc2 => some (acc1, acc2)
  | wsc :: rest, acc1, acc2 =>
    match wsc.change with
    | none => none
    | some c =>
      match (match c with
             | Change.WriteResource write_resource =>
               CurrentDelegatorBalance.get_inactive_pool_to_staking_pool_mapping denv
                 write_resource txn_version txn_timestamp
             | _ => some none) with
      | none => none
      | some o1 =>
        let acc1 := match o1 with
          | some m => AssocMap.extend acc1 m
          | none => acc1
        match (match c with
               | Change.WriteTableItem table_item =>
                 CurrentDelegatorBalance.get_inactive_share_to_pool_mapping denv table_item
                   txn_version
               | _ => some none) with
        | none => none
        | some o2 =>
          let acc2 := match o2 with
            | some m => AssocMap.extend acc2 m
            | none => acc2
          CurrentDelegatorBalance.first_pass denv txn_version txn_timestamp rest acc1 acc2

/-- Per-change body of `CurrentDelegatorBalance::from_transaction`'s second
pass (the `match wsc.change` producing `maybe_delegator_balance`); the
retry-loop traces of the inactive-share helpers are projected away because
only the returned value feeds the fold. -/
def CurrentDelegatorBalance.wsc_delegator_balance (env : SdkEnv) (conn : DbConn)
    (active_pool_to_staking_pool inactive_pool_to_staking_pool : ShareToStakingPoolMapping)
    (inactive_share_to_pool : ShareToPoolMapping)
    (query_retries query_retry_delay_ms : Nat) (txn_version txn_timestamp : Int)
    (index : Int) (c : Change) :
    Option (Option (DelegatorBalance × CurrentDelegatorBalance)) :=
  match c with
  | Change.DeleteTableItem table_item =>
    match CurrentDelegatorBalance.get_active_share_from_delete_table_item env table_item
        txn_version index active_pool_to_staking_pool txn_timestamp with
    | none => none
    | some (some p) => some (some p)
    | some none =>
      (CurrentDelegatorBalance.get_inactive_share_from_delete_table_item env table_item
        txn_version index inactive_pool_to_staking_pool inactive_share_to_pool conn
        query_retries query_retry_delay_ms txn_timestamp).2
  | Change.WriteTableItem table_item =>
    match CurrentDelegatorBalance.get_active_share_from_write_table_item env table_item
        txn_version index active_pool_to_staking_pool txn_timestamp with
    | none => none
    | some (some p) => some (some p)
    | some none =>
      (CurrentDelegatorBalance.get_inactive_share_from_write_table_item env table_item
        txn_version index inactive_pool_to_staking_pool inactive_share_to_pool conn
        query_retries query_retry_delay_ms txn_timestamp).2
  | _ => some none

/-- Second pass of `CurrentDelegatorBalance::from_transaction`: push every
produced history row and unconditionally `insert` every produced
current-state delta under its primary key. -/
def CurrentDelegatorBalance.second_pass (env : SdkEnv) (conn : DbConn)
    (active_pool_to_staking_pool inactive_pool_to_staking_pool : ShareToStakingPoolMapping)
    (inactive_share_to_pool : ShareToPoolMapping)
    (query_retries query_retry_delay_ms : Nat) (txn_version txn_timestamp : Int) :
    List WriteSetChange → Int → List DelegatorBalance → CurrentDelegatorBalanceMap →
      Option (List DelegatorBalance × CurrentDelegatorBalanceMap)
  | [], _, balances, current => some (balances, current)
  | wsc :: rest, index, balances, current =>
    match wsc.change with
    | none => none
    | some c =>
      match CurrentDelegatorBalance.wsc_delegator_balance env conn
          active_pool_to_staking_pool inactive_pool_to_staking_pool inactive_share_to_pool
          query_retries query_retry_delay_ms txn_version txn_timestamp index c with
      | none => none
      | some none =>
        CurrentDelegatorBalance.second_pass env conn active_pool_to_staking_pool
          inactive_pool_to_staking_pool inactive_share_to_pool query_retries
          query_retry_delay_ms txn_version txn_timestamp rest (index + 1) balances current
      | some (some (balance, current_balance)) =>
        CurrentDelegatorBalance.second_pass env conn active_pool_to_staking_pool
          inactive_pool_to_staking_pool inactive_share_to_pool query_retries
          query_retry_delay_ms txn_version txn_timestamp rest (index + 1)
          (balances ++ [balance])
          (AssocMap.insert current
            (current_balance.delegator_address, current_balance.pool_address,
              current_balance.pool_type) current_balance)

/-- `CurrentDelegatorBalance::from_transaction` (`delegator_balances.rs`):
two passes over one transaction's write-set changes, the second deduping
current-state deltas by primary key via unconditional `insert`. -/
def CurrentDelegatorBalance.from_transaction (env : SdkEnv) (denv : DelegatorPoolEnv)
    (conn : DbConn) (transaction : Transaction)
    (active_pool_to_staking_pool : ShareToStakingPoolMapping)
    (query_retries query_retry_delay_ms : Nat) :
    Option (List DelegatorBalance × CurrentDelegatorBalanceMap) :=
  let txn_version : Int := Int.ofNat transaction.version
  match transaction.timestamp with
  | none => none
  | some ts =>
    let txn_timestamp := env.parse_timestamp ts txn_version
    match transaction.info with
    | none => none
    | some info =>
      match CurrentDelegatorBalance.first_pass denv txn_version txn_timestamp info.changes
          AssocMap.empty AssocMap.empty with
      | none => none
      | some (inactive_pool_to_staking_pool, inactive_share_to_pool) =>
        CurrentDelegatorBalance.second_pass env conn active_pool_to_staking_pool
          inactive_pool_to_staking_pool inactive_share_to_pool query_retries
          query_retry_delay_ms txn_version txn_timestamp info.changes 0 []
          AssocMap.empty

/-- Spec-side view of the second pass: the stream of current-state deltas it
produces, in iteration order. -/
def CurrentDelegatorBalance.produced_deltas (env : SdkEnv) (conn : DbConn)
    (active_pool_to_staking_pool inactive_pool_to_staking_pool : ShareToStakingPoolMapping)
    (inactive_share_to_pool : ShareToPoolMapping)
    (query_retries query_retry_delay_ms : Nat) (txn_version txn_timestamp : Int) :
    List WriteSetChange → Int → List CurrentDelegatorBalance
  | [], _ => []
  | wsc :: rest, index =>
    let tail := CurrentDelegatorBalance.produced_deltas env conn
      active_pool_to_staking_pool inactive_pool_to_staking_pool inactive_share_to_pool
      query_retries query_retry_delay_ms txn_version txn_timestamp rest (index + 1)
    match wsc.change with
    | none => tail
    | some c =>
      match CurrentDelegatorBalance.wsc_delegator_balance env conn
          active_pool_to_staking_pool inactive_pool_to_staking_pool inactive_share_to_pool
          query_retries query_retry_delay_ms txn_version txn_timestamp index c with
      | some (some (_, current_balance)) => current_balance :: tail
      | _ => tail

/-- The dedup map built by the second pass maps each primary key to the last
delta produced for it (unconditional overwrite), shadowing whatever the
accumulator held. -/
theorem CurrentDelegatorBalance.second_pass_lookup (env : SdkEnv) (conn : DbConn)
    (apsp ipsp : ShareToStakingPoolMapping) (isp : ShareToPoolMapping)
    (n d : Nat) (v ts : Int) (pk0 : CurrentDelegatorBalancePK) :
    ∀ (changes : List WriteSetChange) (index : Int) (balances : List DelegatorBalance)
      (current : CurrentDelegatorBalanceMap)
      (out : List DelegatorBalance × CurrentDelegatorBalanceMap),
      CurrentDelegatorBalance.second_pass env conn apsp ipsp isp n d v ts changes index
        balances current = some out →
      AssocMap.lookup out.2 pk0 =
        orElseO
          (lastWith CurrentDelegatorBalance.pk pk0
            (CurrentDelegatorBalance.produced_deltas env conn apsp ipsp isp n d v ts
              changes index))
          (AssocMap.lookup current pk0) := by
  intro changes
  induction changes with
  | nil =>
    intro index balances current out h
    simp only [CurrentDelegatorBalance.second_pass, Option.some.injEq] at h
    subst h
    simp [CurrentDelegatorBalance.produced_deltas, lastWith, orElseO]
  | cons wsc rest ih =>
    intro index balances current out h
    cases hc : wsc.change with
    | none =>
      simp only [CurrentDelegatorBalance.second_pass, hc] at h
      cases h
    | some c =>
      simp only [CurrentDelegatorBalance.second_pass, hc] at h
      cases hw : CurrentDelegatorBalance.wsc_delegator_balance env conn apsp ipsp isp
          n d v ts index c with
      | none =>
        simp only [hw] at h
        cases h
      | some o =>
        simp only [hw] at h
        cases o with
        | none =>
          rw [ih (index + 1) balances current out h]
          simp only [CurrentDelegatorBalance.produced_deltas, hc, hw]
        | some p =>
          obtain ⟨b, cb⟩ := p
          rw [ih (index + 1) (balances ++ [b])
            (AssocMap.insert current
              (cb.delegator_address, cb.pool_address, cb.pool_type) cb) out h]
          rw [AssocMap.lookup_insert]
          simp only [CurrentDelegatorBalance.produced_deltas, hc, hw, lastWith]
          rw [orElseO_assoc]
          congr 1
          by_cases hp : (cb.delegator_address, cb.pool_address, cb.pool_type) = pk0
          · have hp2 : CurrentDelegatorBalance.pk cb = pk0 := hp
            simp [hp, hp2, orElseO]
          · have hp2 : ¬ CurrentDelegatorBalance.pk cb = pk0 := hp
            simp [hp, hp2, orElseO]

/-- `NAME_LENGTH` (`token_utils.rs`). -/
def NAME_LENGTH : Nat := 128

/-- `URI_LENGTH` (`token_utils.rs`). -/
def URI_LENGTH : Nat := 512

/-- `TokenDataIdType` (`token_utils.rs`). -/
structure TokenDataIdType where
  creator : String
  collection : String
  name : String
  deriving DecidableEq, Repr

/-- `CollectionDataIdType` (`token_utils.rs`). -/
structure CollectionDataIdType where
  creator : String
  name : String
  deriving DecidableEq, Repr

/-- `TokenIdType` (`token_utils.rs`). -/
structure TokenIdType where
  token_data_id : TokenDataIdType
  property_version : Rat
  deriving DecidableEq, Repr

/-- `TokenType` (`token_utils.rs`). -/
structure TokenType where
  amount : Rat
  id : TokenIdType
  token_properties : JsonValue
  deriving DecidableEq, Repr

/-- `TokenDataMutabilityConfigType` (`token_utils.rs`). -/
structure TokenDataMutabilityConfigType where
  description : Bool
  maximum : Bool
  properties : Bool
  royalty : Bool
  uri : Bool
  deriving DecidableEq, Repr

/-- `RoyaltyType` (`token_utils.rs`). -/
structure RoyaltyType where
  payee_address : String
  royalty_points_denominator : Rat
  royalty_points_numerator : Rat
  deriving DecidableEq, Repr

/-- `TokenDataType` (`token_utils.rs`). -/
structure TokenDataType where
  default_properties : JsonValue
  description : String
  largest_property_version : Rat
  maximum : Rat
  mutability_config : TokenDataMutabilityConfigType
  name : String
  royalty : RoyaltyType
  supply : Rat
  uri : String
  deriving DecidableEq, Repr

/-- `CollectionDataMutabilityConfigType` (`token_utils.rs`). -/
structure CollectionDataMutabilityConfigType where
  description : Bool
  maximum : Bool
  uri : Bool
  deriving DecidableEq, Repr

/-- `CollectionDataType` (`token_utils.rs`). -/
structure CollectionDataType where
  description : String
  maximum : Rat
  mutability_config : CollectionDataMutabilityConfigType
  name : String
  supply : Rat
  uri : String
  deriving DecidableEq, Repr

/-- `TokenOfferIdType` (`token_utils.rs`). -/
structure TokenOfferIdType where
  to_addr : String
  token_id : TokenIdType
  deriving DecidableEq, Repr

/-- `Display` of `TokenDataIdType`:
`standardize_address(creator)::collection::name`. -/
def TokenDataIdType.toDisplay (env : SdkEnv) (t : TokenDataIdType) : String :=
  env.standardize_address t.creator ++ "::" ++ t.collection ++ "::" ++ t.name

def TokenDataIdType.to_hash (env : SdkEnv) (t : TokenDataIdType) : String :=
  env.hash_str (t.toDisplay env)

def TokenDataIdType.get_collection_trunc (env : SdkEnv) (t : TokenDataIdType) : String :=
  env.truncate_str t.collection NAME_LENGTH

def TokenDataIdType.get_name_trunc (env : SdkEnv) (t : TokenDataIdType) : String :=
  env.truncate_str t.name NAME_LENGTH

def TokenDataIdType.get_creator_address (env : SdkEnv) (t : TokenDataIdType) : String :=
  env.standardize_address t.creator

/-- `Display` of `CollectionDataIdType`: `standardize_address(creator)::name`. -/
def CollectionDataIdType.toDisplay (env : SdkEnv) (c : CollectionDataIdType) : String :=
  env.standardize_address c.creator ++ "::" ++ c.name

def CollectionDataIdType.to_hash (env : SdkEnv) (c : CollectionDataIdType) : String :=
  env.hash_str (c.toDisplay env)

def CollectionDataIdType.to_id (env : SdkEnv) (c : CollectionDataIdType) : String :=
  "0x" ++ c.to_hash env

def TokenDataIdType.get_collection_data_id_hash (env : SdkEnv)
    (t : TokenDataIdType) : String :=
  CollectionDataIdType.to_hash env ⟨t.creator, t.collection⟩

def TokenDataIdType.get_collection_id (env : SdkEnv) (t : TokenDataIdType) : String :=
  CollectionDataIdType.to_id env ⟨t.creator, t.collection⟩

def TokenDataIdType.to_id (env : SdkEnv) (t : TokenDataIdType) : String :=
  "0x" ++ t.to_hash env

def TokenOfferIdType.get_to_address (env : SdkEnv) (o : TokenOfferIdType) : String :=
  env.standardize_address o.to_addr

def CollectionDataType.get_name (c : CollectionDataType) : String := c.name

def CollectionDataType.get_uri_trunc (env : SdkEnv) (c : CollectionDataType) : String :=
  env.truncate_str c.uri URI_LENGTH

def CollectionDataType.get_name_trunc (env : SdkEnv) (c : CollectionDataType) : String :=
  env.truncate_str c.name NAME_LENGTH

/-- `TokenWriteSet` (`token_utils.rs`). -/
inductive TokenWriteSet : Type where
  | TokenDataId (t : TokenDataIdType)
  | TokenId (t : TokenIdType)
  | TokenData (t : TokenDataType)
  | Token (t : TokenType)
  | CollectionData (c : CollectionDataType)
  | TokenOfferId (o : TokenOfferIdType)
  deriving DecidableEq, Repr

/-- The serde payload decoders for the six `TokenWriteSet` variants (serde is
an external crate; each decoder turns the raw JSON string into the typed
value, `none` on malformed payload). -/
structure TokenParsers where
  parseTokenDataId : String → Option TokenDataIdType
  parseTokenId : String → Option TokenIdType
  parseTokenData : String → Option TokenDataType
  parseToken : String → Option TokenType
  parseCollectionData : String → Option CollectionDataType
  parseTokenOfferId : String → Option TokenOfferIdType

/-- `TokenWriteSet::from_table_item_type` (`token_utils.rs`): dispatch on
the Move type string; a known type with a malformed payload is an error
(outer `none`), an unknown type is `Ok(None)`. -/
def TokenWriteSet.from_table_item_type (p : TokenParsers) (data_type data : String)
    (_txn_version : Int) : Option (Option TokenWriteSet) :=
  if data_type = "0x3::token::TokenDataId" then
    (p.parseTokenDataId data).map (fun i => some (TokenWriteSet.TokenDataId i))
  else if data_type = "0x3::token::TokenId" then
    (p.parseTokenId data).map (fun i => some (TokenWriteSet.TokenId i))
  else if data_type = "0x3::token::TokenData" then
    (p.parseTokenData data).map (fun i => some (TokenWriteSet.TokenData i))
  else if data_type = "0x3::token::Token" then
    (p.parseToken data).map (fun i => some (TokenWriteSet.Token i))
  else if data_type = "0x3::token::CollectionData" then
    (p.parseCollectionData data).map (fun i => some (TokenWriteSet.CollectionData i))
  else if data_type = "0x3::token_transfers::TokenOfferId" then
    (p.parseTokenOfferId data).map (fun i => some (TokenWriteSet.TokenOfferId i))
  else some none

/-- `tokens` history row (`tokens.rs`). -/
structure Token where
  token_data_id_hash : String
  property_version : Rat
  transaction_version : Int
  creator_address : String
  collection_name : String
  name : String
  token_properties : JsonValue
  collection_data_id_hash : String
  transaction_timestamp : Int
  deriving DecidableEq, Repr

/-- `TableMetadataForToken` (`tokens.rs`). -/
structure TableMetadataForToken where
  owner_address : String
  table_type : String
  deriving DecidableEq, Repr

def TableMetadataForToken.get_owner_address (env : SdkEnv)
    (m : TableMetadataForToken) : String :=
  env.standardize_address m.owner_address

abbrev TableHandleToOwner := AssocMap TableHandle TableMetadataForToken

/-- Modelled from the spec: `TokenOwnership` row (`token_ownerships.rs`,
not under `src/`); the payload is opaque here. -/
structure TokenOwnership where
  data : String
  deriving DecidableEq, Repr

/-- Modelled from the spec: `CurrentTokenOwnership` row
(`token_ownerships.rs`, not under `src/`); only the primary-key fields read
by `Token::from_transaction` are explicit, the rest is opaque. -/
structure CurrentTokenOwnership where
  token_data_id_hash : String
  property_version : Rat
  owner_address : String
  data : String
  deriving DecidableEq, Repr

/-- Modelled from the spec: `TokenData` row (`token_datas.rs`, not under
`src/`). -/
structure TokenData where
  data : String
  deriving DecidableEq, Repr

/-- Modelled from the spec: `CurrentTokenData` row (`token_datas.rs`, not
under `src/`); only the primary-key field is explicit. -/
structure CurrentTokenData where
  token_data_id_hash : String
  data : String
  deriving DecidableEq, Repr

/-- `collection_datas` history row (`collection_datas.rs`). -/
structure CollectionData where
  collection_data_id_hash : String
  transaction_version : Int
  creator_address : String
  collection_name : String
  description : String
  metadata_uri : String
  supply : Rat
  maximum : Rat
  maximum_mutable : Bool
  uri_mutable : Bool
  description_mutable : Bool
  table_handle : String
  transaction_timestamp : Int
  deriving DecidableEq, Repr

/-- `current_collection_datas` current-state row (`collection_datas.rs`). -/
structure CurrentCollectionData where
  collection_data_id_hash : String
  creator_address : String
  collection_name : String
  description : String
  metadata_uri : String
  supply : Rat
  maximum : Rat
  maximum_mutable : Bool
  uri_mutable : Bool
  description_mutable : Bool
  last_transaction_version : Int
  table_handle : String
  last_transaction_timestamp : Int
  deriving DecidableEq, Repr

/-- Modelled from the spec: `TokenOwnership::from_token`
(`token_ownerships.rs`) and `TokenData::from_write_table_item`
(`token_datas.rs`) are not under `src/`; they are abstracted as arbitrary
decoders, the outer `Option` being their `anyhow::Result` layer. -/
structure TokenEnv where
  tokenOwnership_from_token :
    Token → String → String → Rat → String → TableHandleToOwner →
      Option (Option (TokenOwnership × Option CurrentTokenOwnership))
  tokenData_from_write_table_item :
    WriteTableItem → Int → Int → Option (Option (TokenData × CurrentTokenData))

/-- `Token::from_write_table_item` (`tokens.rs`): decode the table item's
value as a `Token`, build the history row, and derive ownership rows via
`TokenOwnership::from_token` with the (clamped) token amount. -/
def Token.from_write_table_item (env : SdkEnv) (p : TokenParsers) (tenv : TokenEnv)
    (table_item : WriteTableItem) (txn_version txn_timestamp : Int)
    (table_handle_to_owner : TableHandleToOwner) :
    Option (Option (Token × Option TokenOwnership × Option CurrentTokenOwnership)) :=
  match table_item.data with
  | none => none
  | some table_item_data =>
    match TokenWriteSet.from_table_item_type p table_item_data.value_type
        table_item_data.value txn_version with
    | none => none
    | some w =>
      match (match w with
             | some (TokenWriteSet.Token inner) => some inner
             | _ => none) with
      | none => some none
      | some token =>
        let token_id := token.id
        let token_data_id := token_id.token_data_id
        let token_pg : Token :=
          { collection_data_id_hash := token_data_id.get_collection_data_id_hash env
            token_data_id_hash := token_data_id.to_hash env
            creator_address := token_data_id.get_creator_address env
            collection_name := token_data_id.get_collection_trunc env
            name := token_data_id.get_name_trunc env
            property_version := token_id.property_version
            transaction_version := txn_version
            token_properties := token.token_properties
            transaction_timestamp := txn_timestamp }
        match tenv.tokenOwnership_from_token token_pg table_item_data.key_type
            table_item_data.key (ensure_not_negative token.amount) table_item.handle
            table_handle_to_owner with
        | none => none
        | some r =>
          let pair := match r with
            | some (ow, cow) => (some ow, cow)
            | none => (none, none)
          some (some (token_pg, pair.1, pair.2))

/-- `Token::from_delete_table_item` (`tokens.rs`): decode the key as a
`TokenId`; the deleted token is emitted with `Value::Null` properties, and
`TokenOwnership::from_token` is invoked with amount `BigDecimal::zero()`. -/
def Token.from_delete_table_item (env : SdkEnv) (p : TokenParsers) (tenv : TokenEnv)
    (table_item : DeleteTableItem) (txn_version txn_timestamp : Int)
    (table_handle_to_owner : TableHandleToOwner) :
    Option (Option (Token × Option TokenOwnership × Option CurrentTokenOwnership)) :=
  match table_item.data with
  | none => none
  | some table_item_data =>
    match TokenWriteSet.from_table_item_type p table_item_data.key_type
        table_item_data.key txn_version with
    | none => none
    | some w =>
      match (match w with
             | some (TokenWriteSet.TokenId inner) => some inner
             | _ => none) with
      | none => some none
      | some token_id =>
        let token_data_id := token_id.token_data_id
        let token : Token :=
          { collection_data_id_hash := token_data_id.get_collection_data_id_hash env
            token_data_id_hash := token_data_id.to_hash env
            creator_address := token_data_id.get_creator_address env
            collection_name := token_data_id.get_collection_trunc env
            name := token_data_id.get_name_trunc env
            property_version := token_id.property_version
            transaction_version := txn_version
            token_properties := JsonValue.null
            transaction_timestamp := txn_timestamp }
        match tenv.tokenOwnership_from_token token table_item_data.key_type
            table_item_data.key 0 table_item.handle table_handle_to_owner with
        | none => none
        | some r =>
          let pair := match r with
            | some (ow, cow) => (some ow, cow)
            | none => (none, none)
          some (some (token, pair.1, pair.2))

/-- `CollectionData::from_write_table_item` (`collection_datas.rs`): decode
the value as `CollectionData`; resolve the creator from the in-batch
`table_handle_to_owner` mapping, falling back to the bounded-retry database
lookup only when the handle is absent, and on exhaustion log an error and
return `Ok(None)`. -/
def CollectionData.from_write_table_item (env : SdkEnv) (p : TokenParsers)
    (table_item : WriteTableItem) (txn_version txn_timestamp : Int)
    (table_handle_to_owner : TableHandleToOwner) (conn : DbConn)
    (query_retries query_retry_delay_ms : Nat) :
    List TraceEvent × Option (Option (CollectionData × CurrentCollectionData)) :=
  match table_item.data with
  | none => ([], none)
  | some table_item_data =>
    match TokenWriteSet.from_table_item_type p table_item_data.value_type
        table_item_data.value txn_version with
    | none => ([], none)
    | some w =>
      match (match w with
             | some (TokenWriteSet.CollectionData inner) => some inner
             | _ => none) with
      | none => ([], some none)
      | some collection_data =>
        let table_handle := table_item.handle
        let build : String → CollectionData × CurrentCollectionData := fun ca =>
          let creator_address := env.standardize_address ca
          let collection_data_id : CollectionDataIdType :=
            ⟨creator_address, collection_data.get_name⟩
          let collection_data_id_hash := collection_data_id.to_hash env
          let collection_name := collection_data.get_name_trunc env
          let metadata_uri := collection_data.get_uri_trunc env
          ({ collection_data_id_hash := collection_data_id_hash
             collection_name := collection_name
             creator_address := collection_data_id.creator
             description := collection_data.description
             transaction_version := txn_version
             metadata_uri := metadata_uri
             supply := collection_data.supply
             maximum := collection_data.maximum
             maximum_mutable := collection_data.mutability_config.maximum
             uri_mutable := collection_data.mutability_config.uri
             description_mutable := collection_data.mutability_config.description
             table_handle := table_handle
             transaction_timestamp := txn_timestamp },
           { collection_data_id_hash := collection_data_id_hash
             collection_name := collection_name
             creator_address := collection_data_id.creator
             description := collection_data.description
             metadata_uri := metadata_uri
             supply := collection_data.supply
             maximum := collection_data.maximum
             maximum_mutable := collection_data.mutability_config.maximum
             uri_mutable := collection_data.mutability_config.uri
             description_mutable := collection_data.mutability_config.description
             last_transaction_version := txn_version
             table_handle := table_handle
             last_transaction_timestamp := txn_timestamp })
        match (AssocMap.lookup table_handle_to_owner
            (env.standardize_address table_handle)).map
            (fun table_metadata => table_metadata.get_owner_address env) with
        | some ca => ([], some (some (build ca)))
        | none =>
          let r := CollectionData.get_collection_creator conn table_handle
            query_retries query_retry_delay_ms
          match r.2 with
          | some creator => (r.1, some (some (build creator)))
          | none => (r.1 ++ [TraceEvent.logError], some none)

abbrev TokenPK := String × Rat
abbrev CurrentTokenOwnershipPK := String × Rat × String

/-- The primary key under which `Token::from_transaction` dedupes tokens. -/
def Token.pk (t : Token) : TokenPK := (t.token_data_id_hash, t.property_version)

/-- Accumulator/output of `Token::from_transaction`.  The Rust function
returns `tokens.into_values()` (an arbitrary `AHashMap` iteration order);
the embedding keeps the deduplication map itself. -/
structure TokenFromTransactionOut where
  tokens : AssocMap TokenPK Token
  token_ownerships : List TokenOwnership
  token_datas : List TokenData
  collection_datas : List CollectionData
  current_token_ownerships : AssocMap CurrentTokenOwnershipPK CurrentTokenOwnership
  current_token_datas : AssocMap String CurrentTokenData
  current_collection_datas : AssocMap String CurrentCollectionData
  deriving DecidableEq, Repr

def TokenFromTransactionOut.empty : TokenFromTransactionOut :=
  ⟨AssocMap.empty, [], [], [], AssocMap.empty, AssocMap.empty, AssocMap.empty⟩

/-- The per-change token extraction of `Token::from_transaction` (the first
component of the tuple match on `wsc.change`). -/
def Token.wsc_token (env : SdkEnv) (p : TokenParsers) (tenv : TokenEnv)
    (table_handle_to_owner : TableHandleToOwner) (txn_version txn_timestamp : Int)
    (c : Change) :
    Option (Option (Token × Option TokenOwnership × Option CurrentTokenOwnership)) :=
  match c with
  | Change.WriteTableItem write_table_item =>
    Token.from_write_table_item env p tenv write_table_item txn_version txn_timestamp
      table_handle_to_owner
  | Change.DeleteTableItem delete_table_item =>
    Token.from_delete_table_item env p tenv delete_table_item txn_version txn_timestamp
      table_handle_to_owner
  | _ => some none

/-- The per-change token-data extraction of `Token::from_transaction` (the
second component of the tuple match on `wsc.change`). -/
def Token.wsc_token_data (tenv : TokenEnv) (txn_version txn_timestamp : Int)
    (c : Change) : Option (Option (TokenData × CurrentTokenData)) :=
  match c with
  | Change.WriteTableItem write_table_item =>
    tenv.tokenData_from_write_table_item write_table_item txn_version txn_timestamp
  | _ => some none

/-- The per-change collection-data extraction of `Token::from_transaction`
(the third component of the tuple match on `wsc.change`); the retry trace is
projected away since only the value feeds the fold. -/
def Token.wsc_collection_data (env : SdkEnv) (p : TokenParsers) (conn : DbConn)
    (table_handle_to_owner : TableHandleToOwner)
    (query_retries query_retry_delay_ms : Nat) (txn_version txn_timestamp : Int)
    (c : Change) : Option (Option (CollectionData × CurrentCollectionData)) :=
  match c with
  | Change.WriteTableItem write_table_item =>
    (CollectionData.from_write_table_item env p write_table_item txn_version
      txn_timestamp table_handle_to_owner conn query_retries query_retry_delay_ms).2
  | _ => some none

/-- The loop body of `Token::from_transaction` over the write-set changes:
extract token/ownership, token-data and collection-data rows for each change
(each extraction's `.unwrap()` panic is the outer `none`), push history rows
and unconditionally `insert` every current-state delta under its key. -/
def Token.txn_pass (env : SdkEnv) (p : TokenParsers) (tenv : TokenEnv) (conn : DbConn)
    (table_handle_to_owner : TableHandleToOwner)
    (query_retries query_retry_delay_ms : Nat) (txn_version txn_timestamp : Int) :
    List WriteSetChange → TokenFromTransactionOut → Option TokenFromTransactionOut
  | [], acc => some acc
  | wsc :: rest, acc =>
    match wsc.change with
    | none => none
    | some c =>
      match Token.wsc_token env p tenv table_handle_to_owner txn_version txn_timestamp
          c with
      | none => none
      | some maybe_token_w_ownership =>
        match Token.wsc_token_data tenv txn_version txn_timestamp c with
        | none => none
        | some maybe_token_data =>
          match Token.wsc_collection_data env p conn table_handle_to_owner
              query_retries query_retry_delay_ms txn_version txn_timestamp c with
          | none => none
          | some maybe_collection_data =>
            let acc := match maybe_token_w_ownership with
              | some (token, maybe_ownership, maybe_current_ownership) =>
                let acc := { acc with
                  tokens := AssocMap.insert acc.tokens
                    (token.token_data_id_hash, token.property_version) token }
                let acc := match maybe_ownership with
                  | some token_ownership =>
                    { acc with token_ownerships := acc.token_ownerships ++ [token_ownership] }
                  | none => acc
                match maybe_current_ownership with
                | some current_token_ownership =>
                  let m2 := AssocMap.insert acc.current_token_ownerships
                    (current_token_ownership.token_data_id_hash,
                      current_token_ownership.property_version,
                      current_token_ownership.owner_address) current_token_ownership
                  { acc with current_token_ownerships := m2 }
                | none => acc
              | none => acc
            let acc := match maybe_token_data with
              | some (token_data, current_token_data) =>
                { acc with
                  token_datas := acc.token_datas ++ [token_data]
                  current_token_datas := AssocMap.insert acc.current_token_datas
                    current_token_data.token_data_id_hash current_token_data }
              | none => acc
            let acc := match maybe_collection_data with
              | some (collection_data, current_collection_data) =>
                { acc with
                  collection_datas := acc.collection_datas ++ [collection_data]
                  current_collection_datas := AssocMap.insert acc.current_collection_datas
                    current_collection_data.collection_data_id_hash
                    current_collection_data }
              | none => acc
            Token.txn_pass env p tenv conn table_handle_to_owner query_retries
              query_retry_delay_ms txn_version txn_timestamp rest acc

/-- `Token::from_transaction` (`tokens.rs`).  A transaction without
`txn_data` is logged, counted and skipped with empty outputs (the function
returns normally); a missing `timestamp` or `info` inside a user
transaction panics (`none`). -/
def Token.from_transaction (env : SdkEnv) (p : TokenParsers) (tenv : TokenEnv)
    (conn : DbConn) (transaction : Transaction)
    (table_handle_to_owner : TableHandleToOwner)
    (query_retries query_retry_delay_ms : Nat) : Option TokenFromTransactionOut :=
  match transaction.txn_data with
  | none => some TokenFromTransactionOut.empty
  | some txn_data =>
    match txn_data with
    | TxnData.User =>
      let txn_version : Int := Int.ofNat transaction.version
      match transaction.timestamp with
      | none => none
      | some ts =>
        let txn_timestamp := env.parse_timestamp ts txn_version
        match transaction.info with
        | none => none
        | some transaction_info =>
          Token.txn_pass env p tenv conn table_handle_to_owner query_retries
            query_retry_delay_ms txn_version txn_timestamp transaction_info.changes
            TokenFromTransactionOut.empty
    | _ => some TokenFromTransactionOut.empty

/-- Spec-side view: the stream of token rows `Token::from_transaction`
produces over the changes, in iteration order. -/
def Token.produced_tokens (env : SdkEnv) (p : TokenParsers) (tenv : TokenEnv)
    (table_handle_to_owner : TableHandleToOwner) (txn_version txn_timestamp : Int) :
    List WriteSetChange → List Token
  | [] => []
  | wsc :: rest =>
    let tail := Token.produced_tokens env p tenv table_handle_to_owner txn_version
      txn_timestamp rest
    match wsc.change with
    | none => tail
    | some c =>
      match Token.wsc_token env p tenv table_handle_to_owner txn_version txn_timestamp
          c with
      | some (some (token, _, _)) => token :: tail
      | _ => tail

/-- The common last-write-wins step: inserting `x` under its key commutes
with prepending `x` to the produced stream. -/
theorem lastWith_insert_step {κ α : Type} [DecidableEq κ] (key : α → κ) (pk0 k : κ)
    (x : α) (tail : List α) (m : AssocMap κ α) (hk : key x = k) :
    orElseO (lastWith key pk0 tail) (AssocMap.lookup (AssocMap.insert m k x) pk0)
      = orElseO (lastWith key pk0 (x :: tail)) (AssocMap.lookup m pk0) := by
  subst hk
  rw [AssocMap.lookup_insert]
  simp only [lastWith]
  rw [orElseO_assoc]
  congr 1
  by_cases hp : key x = pk0 <;> simp [hp, orElseO]

/-- The `tokens` dedup map built by `Token::from_transaction`'s loop maps
each primary key to the last token produced for it (unconditional
overwrite), shadowing whatever the accumulator held. -/
theorem Token.txn_pass_lookup (env : SdkEnv) (p : TokenParsers) (tenv : TokenEnv)
    (conn : DbConn) (thto : TableHandleToOwner) (n d : Nat) (v ts : Int)
    (pk0 : TokenPK) :
    ∀ (changes : List WriteSetChange) (acc out : TokenFromTransactionOut),
      Token.txn_pass env p tenv conn thto n d v ts changes acc = some out →
      AssocMap.lookup out.tokens pk0 =
        orElseO
          (lastWith Token.pk pk0 (Token.produced_tokens env p tenv thto v ts changes))
          (AssocMap.lookup acc.tokens pk0) := by
  intro changes
  induction changes with
  | nil =>
    intro acc out h
    simp only [Token.txn_pass, Option.some.injEq] at h
    subst h
    simp [Token.produced_tokens, lastWith, orElseO]
  | cons wsc rest ih =>
    intro acc out h
    cases hc : wsc.change with
    | none =>
      simp only [Token.txn_pass, hc] at h
      cases h
    | some c =>
      simp only [Token.txn_pass, hc] at h
      cases hw : Token.wsc_token env p tenv thto v ts c with
      | none =>
        simp only [hw] at h
        cases h
      | some mto =>
        simp only [hw] at h
        cases htd : Token.wsc_token_data tenv v ts c with
        | none =>
          simp only [htd] at h
          cases h
        | some mtd =>
          simp only [htd] at h
          cases hcd : Token.wsc_collection_data env p conn thto n d v ts c with
          | none =>
            simp only [hcd] at h
            cases h
          | some mcd =>
            simp only [hcd] at h
            simp only [Token.produced_tokens, hc, hw]
            cases mto with
            | none =>
              cases mtd <;> cases mcd <;>
                simp_all only [] <;>
                rw [ih _ out h]
            | some tpart =>
              obtain ⟨token, mo, mco⟩ := tpart
              cases mo <;> cases mco <;> cases mtd <;> cases mcd <;>
                simp_all only [] <;>
                · rw [ih _ out h]
                  exact lastWith_insert_step Token.pk pk0 _ token _ _ rfl

/-- The current-state delta one call of
`CurrentDelegatorBalance::from_transaction` yields for key `k` (`none` when
the extractor fails or produces nothing for `k`). -/
def CurrentDelegatorBalance.produce_at (env : SdkEnv) (denv : DelegatorPoolEnv)
    (conn : DbConn) (apsp : ShareToStakingPoolMapping) (n d : Nat)
    (t : Transaction) (k : CurrentDelegatorBalancePK) : Option CurrentDelegatorBalance :=
  match CurrentDelegatorBalance.from_transaction env denv conn t apsp n d with
  | some r => AssocMap.lookup r.2 k
  | none => none

/-- Modelled from the spec: the batch-level current-state reducer (§4.2).
The per-domain processor step that merges the per-transaction maps is not
under `src/`; per the spec it folds the per-transaction current-state maps
over the batch in presented (ascending version) order, later maps
overwriting earlier entries, and any extractor failure aborts the batch. -/
def CurrentDelegatorBalance.merge_batch (env : SdkEnv) (denv : DelegatorPoolEnv)
    (conn : DbConn) (apsp : ShareToStakingPoolMapping) (n d : Nat) :
    List Transaction → CurrentDelegatorBalanceMap → Option CurrentDelegatorBalanceMap
  | [], acc => some acc
  | t :: rest, acc =>
    match CurrentDelegatorBalance.from_transaction env denv conn t apsp n d with
    | none => none
    | some r =>
      CurrentDelegatorBalance.merge_batch env denv conn apsp n d rest
        (AssocMap.extend acc r.2)

/-- Spec-side view: the last delta produced for `k` across the batch. -/
def CurrentDelegatorBalance.last_produced (env : SdkEnv) (denv : DelegatorPoolEnv)
    (conn : DbConn) (apsp : ShareToStakingPoolMapping) (n d : Nat)
    (k : CurrentDelegatorBalancePK) : List Transaction → Option CurrentDelegatorBalance
  | [] => none
  | t :: rest =>
    orElseO (CurrentDelegatorBalance.last_produced env denv conn apsp n d k rest)
      (CurrentDelegatorBalance.produce_at env denv conn apsp n d t k)

theorem CurrentDelegatorBalance.merge_batch_lookup (env : SdkEnv)
    (denv : DelegatorPoolEnv) (conn : DbConn) (apsp : ShareToStakingPoolMapping)
    (n d : Nat) (k : CurrentDelegatorBalancePK) :
    ∀ (txns : List Transaction) (acc M : CurrentDelegatorBalanceMap),
      CurrentDelegatorBalance.merge_batch env denv conn apsp n d txns acc = some M →
      AssocMap.lookup M k =
        orElseO (CurrentDelegatorBalance.last_produced env denv conn apsp n d k txns)
          (AssocMap.lookup acc k) := by
  intro txns
  induction txns with
  | nil =>
    intro acc M h
    simp only [CurrentDelegatorBalance.merge_batch, Option.some.injEq] at h
    subst h
    simp [CurrentDelegatorBalance.last_produced, orElseO]
  | cons t rest ih =>
    intro acc M h
    cases hft : CurrentDelegatorBalance.from_transaction env denv conn t apsp n d with
    | none =>
      simp only [CurrentDelegatorBalance.merge_batch, hft] at h
      cases h
    | some r =>
      simp only [CurrentDelegatorBalance.merge_batch, hft] at h
      rw [ih _ M h, AssocMap.lookup_extend]
      simp only [CurrentDelegatorBalance.last_produced,
        CurrentDelegatorBalance.produce_at, hft]
      rw [orElseO_assoc]

theorem CurrentDelegatorBalance.last_produced_none (env : SdkEnv)
    (denv : DelegatorPoolEnv) (conn : DbConn) (apsp : ShareToStakingPoolMapping)
    (n d : Nat) (k : CurrentDelegatorBalancePK) :
    ∀ (txns : List Transaction),
      (∀ t ∈ txns, CurrentDelegatorBalance.produce_at env denv conn apsp n d t k = none) →
      CurrentDelegatorBalance.last_produced env denv conn apsp n d k txns = none := by
  intro txns
  induction txns with
  | nil => intro _; rfl
  | cons t rest ih =>
    intro hall
    simp only [CurrentDelegatorBalance.last_produced]
    rw [ih (fun r hr => hall r (List.mem_cons_of_mem _ hr)),
      hall t (List.mem_cons_self _ _)]
    rfl

/-- In an ascending-version batch where `t2` is the version-maximal producer
of `k`, the last produced delta for `k` is `t2`'s. -/
theorem CurrentDelegatorBalance.last_produced_unique (env : SdkEnv)
    (denv : DelegatorPoolEnv) (conn : DbConn) (apsp : ShareToStakingPoolMapping)
    (n d : Nat) (k : CurrentDelegatorBalancePK) (t2 : Transaction)
    (d2 : CurrentDelegatorBalance) :
    ∀ (txns : List Transaction),
      List.Pairwise (fun a b => a.version < b.version) txns →
      t2 ∈ txns →
      CurrentDelegatorBalance.produce_at env denv conn apsp n d t2 k = some d2 →
      (∀ t ∈ txns, CurrentDelegatorBalance.produce_at env denv conn apsp n d t k ≠ none →
        t = t2 ∨ t.version < t2.version) →
      CurrentDelegatorBalance.last_produced env denv conn apsp n d k txns = some d2 := by
  intro txns
  induction txns with
  | nil =>
    intro _ h2 _ _
    cases h2
  | cons t rest ih =>
    intro hp h2 hd2 hall
    rw [List.pairwise_cons] at hp
    obtain ⟨hhead, hrest⟩ := hp
    simp only [CurrentDelegatorBalance.last_produced]
    by_cases hmem : t2 ∈ rest
    · rw [ih hrest hmem hd2 (fun r hr hne => hall r (List.mem_cons_of_mem _ hr) hne)]
      rfl
    · have ht2 : t2 = t := by
        rcases List.mem_cons.mp h2 with h | h
        · exact h
        · exact absurd h hmem
      subst ht2
      have hnone : ∀ r ∈ rest,
          CurrentDelegatorBalance.produce_at env denv conn apsp n d r k = none := by
        intro r hr
        by_contra hne
        rcases hall r (List.mem_cons_of_mem _ hr) hne with h | h
        · exact hmem (h ▸ hr)
        · have hv := hhead r hr
          omega
      rw [CurrentDelegatorBalance.last_produced_none env denv conn apsp n d k rest hnone]
      simpa [orElseO] using hd2

/-- C2: the current-state dedup maps of `Token::from_transaction` and
`CurrentDelegatorBalance::from_transaction` bind each primary key to the
delta seen last (each `insert` unconditionally overwrites), and across a
batch presented in ascending version order, for two deltas on the same key
with versions `v1 < v2` the reducer's entry for that key is the `v2`
delta. -/
theorem current_state_dedup_last_write_wins
    (env : SdkEnv) (denv : DelegatorPoolEnv) (p : TokenParsers) (tenv : TokenEnv)
    (conn : DbConn) (apsp : ShareToStakingPoolMapping) (thto : TableHandleToOwner)
    (n d : Nat) :
    (∀ (txn : Transaction) (ts0 : Int) (info : TransactionInfo)
      (ipsp : ShareToStakingPoolMapping) (isp : ShareToPoolMapping)
      (out : List DelegatorBalance × CurrentDelegatorBalanceMap)
      (pk0 : CurrentDelegatorBalancePK),
      txn.timestamp = some ts0 → txn.info = some info →
      CurrentDelegatorBalance.first_pass denv (Int.ofNat txn.version)
        (env.parse_timestamp ts0 (Int.ofNat txn.version)) info.changes
        AssocMap.empty AssocMap.empty = some (ipsp, isp) →
      CurrentDelegatorBalance.from_transaction env denv conn txn apsp n d = some out →
      AssocMap.lookup out.2 pk0 =
        lastWith CurrentDelegatorBalance.pk pk0
          (CurrentDelegatorBalance.produced_deltas env conn apsp ipsp isp n d
            (Int.ofNat txn.version) (env.parse_timestamp ts0 (Int.ofNat txn.version))
            info.changes 0)) ∧
    (∀ (txn : Transaction) (ts0 : Int) (info : TransactionInfo)
      (out : TokenFromTransactionOut) (pk0 : TokenPK),
      txn.txn_data = some TxnData.User → txn.timestamp = some ts0 →
      txn.info = some info →
      Token.from_transaction env p tenv conn txn thto n d = some out →
      AssocMap.lookup out.tokens pk0 =
        lastWith Token.pk pk0
          (Token.produced_tokens env p tenv thto (Int.ofNat txn.version)
            (env.parse_timestamp ts0 (Int.ofNat txn.version)) info.changes)) ∧
    (∀ (txns : List Transaction) (t1 t2 : Transaction)
      (k : CurrentDelegatorBalancePK) (d1 d2 : CurrentDelegatorBalance)
      (M : CurrentDelegatorBalanceMap),
      List.Pairwise (fun a b => a.version < b.version) txns →
      t1 ∈ txns → t2 ∈ txns → t1.version < t2.version →
      CurrentDelegatorBalance.produce_at env denv conn apsp n d t1 k = some d1 →
      CurrentDelegatorBalance.produce_at env denv conn apsp n d t2 k = some d2 →
      (∀ t ∈ txns, t ≠ t1 → t ≠ t2 →
        CurrentDelegatorBalance.produce_at env denv conn apsp n d t k = none) →
      CurrentDelegatorBalance.merge_batch env denv conn apsp n d txns AssocMap.empty
        = some M →
      AssocMap.lookup M k = some d2) := by
  refine ⟨?_, ?_, ?_⟩
  · intro txn ts0 info ipsp isp out pk0 hts hinfo hfp hft
    simp only [CurrentDelegatorBalance.from_transaction, hts, hinfo, hfp] at hft
    rw [CurrentDelegatorBalance.second_pass_lookup env conn apsp ipsp isp n d
      (Int.ofNat txn.version) (env.parse_timestamp ts0 (Int.ofNat txn.version)) pk0
      info.changes 0 [] AssocMap.empty out hft]
    rw [AssocMap.lookup_empty, orElseO_none_right]
  · intro txn ts0 info out pk0 hdata hts hinfo hft
    simp only [Token.from_transaction, hdata, hts, hinfo] at hft
    rw [Token.txn_pass_lookup env p tenv conn thto n d (Int.ofNat txn.version)
      (env.parse_timestamp ts0 (Int.ofNat txn.version)) pk0 info.changes
      TokenFromTransactionOut.empty out hft]
    rw [show (TokenFromTransactionOut.empty).tokens = AssocMap.empty from rfl,
      AssocMap.lookup_empty, orElseO_none_right]
  · intro txns t1 t2 k d1 d2 M hp h1 h2 hv hd1 hd2 hother hM
    rw [CurrentDelegatorBalance.merge_batch_lookup env denv conn apsp n d k txns
      AssocMap.empty M hM, AssocMap.lookup_empty, orElseO_none_right]
    refine CurrentDelegatorBalance.last_produced_unique env denv conn apsp n d k t2 d2
      txns hp h2 hd2 ?_
    intro t ht hne
    by_cases he2 : t = t2
    · exact Or.inl he2
    · by_cases he1 : t = t1
      · subst he1
        exact Or.inr hv
      · exact absurd (hother t ht he1 he2) hne

/-- Concrete SDK environment for witnesses: identity string helpers and a
two-value `BigDecimal` parser. -/
def env0 : SdkEnv where
  standardize_address := fun s => s
  hash_str := fun s => s
  truncate_str := fun s _ => s
  parse_bigdecimal := fun s =>
    if s = "10" then some 10 else if s = "20" then some 20 else none
  parse_timestamp := fun ts _ => ts
  cedra_coin_type_str := "0x1::cedra_coin::CedraCoin"

/-- Concrete delegator-pool decoders that never recognise anything. -/
def denv0 : DelegatorPoolEnv where
  get_delegated_pool_metadata_from_write_resource := fun _ _ _ => some none
  get_inactive_pool_metadata_from_write_table_item := fun _ _ => some none

/-- Concrete token parsers that never recognise anything. -/
def p0 : TokenParsers where
  parseTokenDataId := fun _ => none
  parseTokenId := fun _ => none
  parseTokenData := fun _ => none
  parseToken := fun _ => none
  parseCollectionData := fun _ => none
  parseTokenOfferId := fun _ => none

/-- Concrete token decoders that never recognise anything. -/
def tenv0 : TokenEnv where
  tokenOwnership_from_token := fun _ _ _ _ _ _ => some none
  tokenData_from_write_table_item := fun _ _ _ => some none

def poolMeta0 : DelegatorPoolBalanceMetadata where
  staking_pool_address := "P"
  scaling_factor := 1
  active_share_table_handle := "H"
  inactive_share_table_handle := "HI"

def apsp0 : ShareToStakingPoolMapping := ⟨[("H", poolMeta0)]⟩

def itemA : WriteTableItem :=
  { handle := "H", key := "D", data := none, decoded_key := "D",
    decoded_value := some "10" }

def itemB : WriteTableItem :=
  { handle := "H", key := "D", data := none, decoded_key := "D",
    decoded_value := some "20" }

def txnA : Transaction :=
  { version := 5, timestamp := some 0,
    info := some ⟨[⟨some (Change.WriteTableItem itemA)⟩]⟩,
    txn_data := some TxnData.User }

def txnB : Transaction :=
  { version := 9, timestamp := some 0,
    info := some ⟨[⟨some (Change.WriteTableItem itemB)⟩]⟩,
    txn_data := some TxnData.User }

def kD : CurrentDelegatorBalancePK := ("D", "P", "active_shares")

def deltaA : CurrentDelegatorBalance :=
  { delegator_address := "D", pool_address := "P", pool_type := "active_shares",
    table_handle := "H", last_transaction_version := 5,
    shares := (10 : Rat) / poolMeta0.scaling_factor,
    parent_table_handle := "H", block_timestamp := 0 }

def deltaB : CurrentDelegatorBalance :=
  { delegator_address := "D", pool_address := "P", pool_type := "active_shares",
    table_handle := "H", last_transaction_version := 9,
    shares := (20 : Rat) / poolMeta0.scaling_factor,
    parent_table_handle := "H", block_timestamp := 0 }

def mergedAB : CurrentDelegatorBalanceMap := ⟨[(kD, deltaB), (kD, deltaA)]⟩

/-- Witness for `current_state_dedup_last_write_wins`: a two-transaction
batch with versions `5 < 9` writing the same delegator key; the reducer
entry is the version-9 delta. -/
theorem current_state_dedup_last_write_wins_witness :
    (CurrentDelegatorBalance.merge_batch env0 denv0 connAllFail apsp0 3 7
        [txnA, txnB] AssocMap.empty).bind (fun M => AssocMap.lookup M kD)
      = some deltaB := by
  have hM : CurrentDelegatorBalance.merge_batch env0 denv0 connAllFail apsp0 3 7
      [txnA, txnB] AssocMap.empty = some mergedAB := rfl
  have h := (current_state_dedup_last_write_wins env0 denv0 p0 tenv0 connAllFail
    apsp0 AssocMap.empty 3 7).2.2 [txnA, txnB] txnA txnB kD deltaA deltaB mergedAB
    (by decide) (by decide) (by decide) (by decide) rfl rfl
    (by decide) hM
  rw [hM]
  simpa using h

/-- `VoteDelegationResource` (`stake_utils.rs`). -/
structure VoteDelegationResource where
  voter : String
  pending_voter : String
  deriving DecidableEq, Repr

def VoteDelegationResource.get_voter (env : SdkEnv) (r : VoteDelegationResource) : String :=
  env.standardize_address r.voter

def VoteDelegationResource.get_pending_voter (env : SdkEnv)
    (r : VoteDelegationResource) : String :=
  env.standardize_address r.pending_voter

/-- `VoteDelegationVector` (`stake_utils.rs`). -/
structure VoteDelegationVector where
  key : String
  value : VoteDelegationResource
  deriving DecidableEq, Repr

def VoteDelegationVector.get_delegator_address (env : SdkEnv)
    (v : VoteDelegationVector) : String :=
  env.standardize_address v.key

/-- `VoteDelegationTableItem` (`stake_utils.rs`). -/
inductive VoteDelegationTableItem : Type where
  | VoteDelegationVector (v : List VoteDelegationVector)
  deriving DecidableEq, Repr

/-- Serde decoder for the vote-delegation vector payload (serde is an
external crate). -/
structure StakeParsers where
  parseVoteDelegationVector : String → Option (List VoteDelegationVector)

/-- `VoteDelegationTableItem::from_table_item_type` (`stake_utils.rs`). -/
def VoteDelegationTableItem.from_table_item_type (sp : StakeParsers)
    (data_type data : String) (_txn_version : Int) :
    Option (Option VoteDelegationTableItem) :=
  if data_type
      = "vector<0x1::smart_table::Entry<address, 0x1::delegation_pool::VoteDelegation>>"
  then
    (sp.parseVoteDelegationVector data).map
      (fun v => some (VoteDelegationTableItem.VoteDelegationVector v))
  else some none

/-- `current_delegated_voter` current-state row
(`current_delegated_voter.rs`). -/
structure CurrentDelegatedVoter where
  delegation_pool_address : String
  delegator_address : String
  table_handle : Option String
  voter : Option String
  pending_voter : Option String
  last_transaction_version : Int
  last_transaction_timestamp : Int
  deriving DecidableEq, Repr

abbrev CurrentDelegatedVoterPK := String × String
abbrev CurrentDelegatedVoterMap := AssocMap CurrentDelegatedVoterPK CurrentDelegatedVoter
abbrev VoteDelegationTableHandleToPool := AssocMap String String

/-- `CurrentDelegatedVoter::from_write_table_item`
(`current_delegated_voter.rs`).  The pool address comes from the in-batch
mapping when present; otherwise from the bounded-retry lookup, and on
exhaustion an error is logged and the empty string is substituted
(`unwrap_or_else`), which then suppresses row production
(`if !pool_address.is_empty()`). -/
def CurrentDelegatedVoter.from_write_table_item (env : SdkEnv) (sp : StakeParsers)
    (write_table_item : WriteTableItem) (txn_version txn_timestamp : Int)
    (vote_delegation_handle_to_pool_address : VoteDelegationTableHandleToPool)
    (conn : DbConn) (query_retries query_retry_delay_ms : Nat) :
    List TraceEvent × Option CurrentDelegatedVoterMap :=
  match write_table_item.data with
  | none => ([], none)
  | some table_item_data =>
    let table_handle := env.standardize_address write_table_item.handle
    match VoteDelegationTableItem.from_table_item_type sp table_item_data.value_type
        table_item_data.value txn_version with
    | none => ([], none)
    | some w =>
      match w with
      | some (VoteDelegationTableItem.VoteDelegationVector vote_delegation_vector) =>
        let resolved : List TraceEvent × String :=
          match AssocMap.lookup vote_delegation_handle_to_pool_address table_handle with
          | some pool_address => ([], pool_address)
          | none =>
            let r := CurrentDelegatedVoter.get_delegation_pool_address_by_table_handle
              conn table_handle query_retries query_retry_delay_ms
            match r.2 with
            | some pool_address => (r.1, pool_address)
            | none => (r.1 ++ [TraceEvent.logError], "")
        let pool_address := resolved.2
        let delegated_voter_map : CurrentDelegatedVoterMap :=
          if pool_address = "" then AssocMap.empty
          else
            vote_delegation_vector.foldl
              (fun acc inner =>
                let delegator_address := inner.get_delegator_address env
                let voter := inner.value.get_voter env
                let pending_voter := inner.value.get_pending_voter env
                AssocMap.insert acc (pool_address, delegator_address)
                  { delegator_address := delegator_address
                    delegation_pool_address := pool_address
                    voter := some voter
                    pending_voter := some pending_voter
                    last_transaction_timestamp := txn_timestamp
                    last_transaction_version := txn_version
                    table_handle := some table_handle })
              AssocMap.empty
        (resolved.1, some delegated_voter_map)
      | _ => ([], some AssocMap.empty)

/-- `CurrentDelegatedVoter::get_delegators_pre_contract_deployment`
(`current_delegated_voter.rs`): emit a default-voter row for an active-share
delegator unless a delegated-voter row already exists in the batch map or —
per `get_existence_by_pk` — in the database. -/
def CurrentDelegatedVoter.get_delegators_pre_contract_deployment (env : SdkEnv)
    (write_table_item : WriteTableItem) (txn_version txn_timestamp : Int)
    (active_pool_to_staking_pool : ShareToStakingPoolMapping)
    (previous_delegated_voters : CurrentDelegatedVoterMap) (conn : DbConn)
    (query_retries query_retry_delay_ms : Nat) :
    List TraceEvent × Option (Option CurrentDelegatedVoter) :=
  match CurrentDelegatorBalance.get_active_share_from_write_table_item env
      write_table_item txn_version 0 active_pool_to_staking_pool txn_timestamp with
  | none => ([], none)
  | some none => ([], some none)
  | some (some (_, active_balance)) =>
    let pool_address := active_balance.pool_address
    let delegator_address := active_balance.delegator_address
    let r : List TraceEvent × Bool :=
      match AssocMap.lookup previous_delegated_voters
          (pool_address, delegator_address) with
      | some _ => ([], true)
      | none =>
        CurrentDelegatedVoter.get_existence_by_pk conn delegator_address pool_address
          query_retries query_retry_delay_ms
    if r.2 then (r.1, some none)
    else
      (r.1, some (some
        { delegator_address := delegator_address
          delegation_pool_address := pool_address
          table_handle := none
          voter := some delegator_address
          pending_voter := some delegator_address
          last_transaction_version := txn_version
          last_transaction_timestamp := txn_timestamp }))

/-- C3: when a cross-batch lookup stays unresolved after all retries the
failure is never silently dropped without a log record:
`CurrentDelegatedVoter::from_write_table_item` logs an error and substitutes
the empty-string pool address (degrading to an empty row map, still `Ok`);
`CurrentDelegatorBalance::get_inactive_share_from_write_table_item` logs an
error and returns `Ok(None)`, dropping the row;
`CurrentDelegatorBalance::get_inactive_share_from_delete_table_item`
escalates, propagating the lookup error. -/
theorem resolver_exhaustion_policies (env : SdkEnv) (sp : StakeParsers) (conn : DbConn)
    (w1 w2 : WriteTableItem) (d3 : DeleteTableItem) (tid : TableItemData)
    (vec : List VoteDelegationVector) (vdmap : VoteDelegationTableHandleToPool)
    (ipsp : ShareToStakingPoolMapping) (isp : ShareToPoolMapping)
    (pb2 pb3 : PoolBalanceMetadata) (n d : Nat) (v ts idx : Int)
    (hdata : w1.data = some tid)
    (hparse : VoteDelegationTableItem.from_table_item_type sp tid.value_type tid.value v
      = some (some (VoteDelegationTableItem.VoteDelegationVector vec)))
    (hlook : AssocMap.lookup vdmap (env.standardize_address w1.handle) = none)
    (hfail1 : ∀ i,
      conn.get_voter_by_table_handle i (env.standardize_address w1.handle) = none)
    (hisp2 : AssocMap.lookup isp (env.standardize_address w2.handle) = some pb2)
    (hipsp2 : AssocMap.lookup ipsp pb2.parent_table_handle = none)
    (hfail2 : ∀ i, conn.get_by_inactive_share_handle i pb2.parent_table_handle = none)
    (hisp3 : AssocMap.lookup isp (env.standardize_address d3.handle) = some pb3)
    (hipsp3 : AssocMap.lookup ipsp pb3.parent_table_handle = none)
    (hfail3 : ∀ i, conn.get_by_inactive_share_handle i pb3.parent_table_handle = none) :
    ((CurrentDelegatedVoter.from_write_table_item env sp w1 v ts vdmap conn n d).2
        = some AssocMap.empty ∧
      TraceEvent.logError ∈
        (CurrentDelegatedVoter.from_write_table_item env sp w1 v ts vdmap conn n d).1) ∧
    ((CurrentDelegatorBalance.get_inactive_share_from_write_table_item env w2 v idx ipsp
        isp conn n d ts).2 = some none ∧
      TraceEvent.logError ∈
        (CurrentDelegatorBalance.get_inactive_share_from_write_table_item env w2 v idx
          ipsp isp conn n d ts).1) ∧
    (CurrentDelegatorBalance.get_inactive_share_from_delete_table_item env d3 v idx ipsp
      isp conn n d ts).2 = none := by
  have hr1 := retryLoop_allFail_zero
    (fun i => (conn.get_voter_by_table_handle i (env.standardize_address w1.handle)).map
      (fun r => r.delegation_pool_address)) (fun i => by simp [hfail1 i]) n d
  have hr2 := retryLoop_allFail_zero
    (fun i => (conn.get_by_inactive_share_handle i pb2.parent_table_handle).map
      (fun r => r.pool_address)) (fun i => by simp [hfail2 i]) n d
  have hr3 := retryLoop_allFail_zero
    (fun i => (conn.get_by_inactive_share_handle i pb3.parent_table_handle).map
      (fun r => r.pool_address)) (fun i => by simp [hfail3 i]) n d
  refine ⟨⟨?_, ?_⟩, ⟨?_, ?_⟩, ?_⟩
  · simp [CurrentDelegatedVoter.from_write_table_item, hdata, hparse, hlook,
      CurrentDelegatedVoter.get_delegation_pool_address_by_table_handle, hr1]
  · simp [CurrentDelegatedVoter.from_write_table_item, hdata, hparse, hlook,
      CurrentDelegatedVoter.get_delegation_pool_address_by_table_handle, hr1]
  · simp [CurrentDelegatorBalance.get_inactive_share_from_write_table_item, hisp2,
      hipsp2, CurrentDelegatorBalance.get_staking_pool_from_inactive_share_handle, hr2]
  · simp [CurrentDelegatorBalance.get_inactive_share_from_write_table_item, hisp2,
      hipsp2, CurrentDelegatorBalance.get_staking_pool_from_inactive_share_handle, hr2]
  · simp [CurrentDelegatorBalance.get_inactive_share_from_delete_table_item, hisp3,
      hipsp3, CurrentDelegatorBalance.get_staking_pool_from_inactive_share_handle, hr3]

def sp0 : StakeParsers := ⟨fun s => if s = "VD" then some [] else none⟩

def tidVote : TableItemData :=
  { key := "", key_type := "", value := "VD",
    value_type :=
      "vector<0x1::smart_table::Entry<address, 0x1::delegation_pool::VoteDelegation>>" }

def w1c : WriteTableItem :=
  { handle := "W1", key := "", data := some tidVote, decoded_key := "",
    decoded_value := none }

def w2c : WriteTableItem :=
  { handle := "W2", key := "D", data := none, decoded_key := "D",
    decoded_value := some "10" }

def d3c : DeleteTableItem := { handle := "D3", key := "D", data := none }

def pbX : PoolBalanceMetadata :=
  { scaling_factor := 1, parent_table_handle := "PH", shares_table_handle := "S" }

def ispC : ShareToPoolMapping := ⟨[("W2", pbX), ("D3", pbX)]⟩

/-- Witness for `resolver_exhaustion_policies` on an always-failing
connection: the delete-side helper escalates while the voter-side helper
degrades to an empty map. -/
theorem resolver_exhaustion_policies_witness :
    (CurrentDelegatorBalance.get_inactive_share_from_delete_table_item env0 d3c 5 0
        AssocMap.empty ispC connAllFail 2 3 0).2 = none ∧
    (CurrentDelegatedVoter.from_write_table_item env0 sp0 w1c 5 0 AssocMap.empty
        connAllFail 2 3).2 = some AssocMap.empty := by
  have h := resolver_exhaustion_policies env0 sp0 connAllFail w1c w2c d3c tidVote []
    AssocMap.empty AssocMap.empty ispC pbX pbX 2 3 5 0 0 rfl (by decide) rfl
    (fun _ => rfl) rfl rfl (fun _ => rfl) rfl rfl (fun _ => rfl)
  exact ⟨h.2.2, h.1.1⟩

/-- Modelled from the spec: `TokenActivityHelperV1`
(`v2_token_activities.rs`, not under `src/`); only the `from_address` field
read by `token_claims.rs` is kept. -/
structure TokenActivityHelperV1 where
  from_address : Option String
  deriving DecidableEq, Repr

abbrev TokenV1Claimed := AssocMap String TokenActivityHelperV1

/-- `current_token_pending_claims` current-state row (`token_claims.rs`). -/
structure CurrentTokenPendingClaim where
  token_data_id_hash : String
  property_version : Rat
  from_address : String
  to_address : String
  collection_data_id_hash : String
  creator_address : String
  collection_name : String
  name : String
  amount : Rat
  table_handle : String
  last_transaction_version : Int
  last_transaction_timestamp : Int
  token_data_id : String
  collection_id : String
  deriving DecidableEq, Repr

/-- `CurrentTokenPendingClaim::from_delete_table_item` (`token_claims.rs`):
decode the key as a `TokenOfferId`; resolve the offer's owner from the
in-batch mapping, falling back to the token-v1 claim events, and `panic!`
(outer `none`) when both miss; the claim row carries
`amount = BigDecimal::zero()`. -/
def CurrentTokenPendingClaim.from_delete_table_item (env : SdkEnv) (p : TokenParsers)
    (table_item : DeleteTableItem) (txn_version txn_timestamp : Int)
    (table_handle_to_owner : TableHandleToOwner) (tokens_claimed : TokenV1Claimed) :
    Option (Option CurrentTokenPendingClaim) :=
  match table_item.data with
  | none => none
  | some table_item_data =>
    match TokenWriteSet.from_table_item_type p table_item_data.key_type
        table_item_data.key txn_version with
    | none => none
    | some w =>
      match (match w with
             | some (TokenWriteSet.TokenOfferId inner) => some inner
             | _ => none) with
      | none => some none
      | some offer =>
        let table_handle := env.standardize_address table_item.handle
        let token_data_id0 := offer.token_id.token_data_id.to_id env
        let maybe_owner_address :=
          match (AssocMap.lookup table_handle_to_owner table_handle).map
              (fun table_metadata => table_metadata.get_owner_address env) with
          | some owner => some owner
          | none =>
            match AssocMap.lookup tokens_claimed token_data_id0 with
            | some token_claimed => token_claimed.from_address
            | none => none
        match maybe_owner_address with
        | none => none
        | some owner_address =>
          let token_id := offer.token_id
          let token_data_id_struct := token_id.token_data_id
          some (some
            { token_data_id_hash := token_data_id_struct.to_hash env
              property_version := token_id.property_version
              from_address := owner_address
              to_address := offer.get_to_address env
              collection_data_id_hash :=
                token_data_id_struct.get_collection_data_id_hash env
              creator_address := token_data_id_struct.get_creator_address env
              collection_name := token_data_id_struct.get_collection_trunc env
              name := token_data_id_struct.get_name_trunc env
              amount := 0
              table_handle := table_handle
              last_transaction_version := txn_version
              last_transaction_timestamp := txn_timestamp
              token_data_id := token_data_id_struct.to_id env
              collection_id := token_data_id_struct.get_collection_id env })

/-- The token row `Token::from_delete_table_item` emits: null properties,
keyed by the decoded `TokenId`. -/
def Token.zeroed_delete_token (env : SdkEnv) (token_id : TokenIdType)
    (txn_version txn_timestamp : Int) : Token :=
  { collection_data_id_hash := token_id.token_data_id.get_collection_data_id_hash env
    token_data_id_hash := token_id.token_data_id.to_hash env
    creator_address := token_id.token_data_id.get_creator_address env
    collection_name := token_id.token_data_id.get_collection_trunc env
    name := token_id.token_data_id.get_name_trunc env
    property_version := token_id.property_version
    transaction_version := txn_version
    token_properties := JsonValue.null
    transaction_timestamp := txn_timestamp }

/-- C4: a delete-type change matching a tracked entity still produces a
current-state delta with zeroed value fields:
`get_active_share_from_delete_table_item` emits rows with `shares = 0`;
`Token::from_delete_table_item` emits the token with null properties and
derives ownership with amount `0`;
`CurrentTokenPendingClaim::from_delete_table_item` emits a claim with
`amount = 0`.  Deletion is a data value, never row absence. -/
theorem delete_represented_as_zeroed_delta (env : SdkEnv) (p : TokenParsers)
    (tenv : TokenEnv) (del1 del2 : DeleteTableItem) (del3 : DeleteTableItem)
    (apsp : ShareToStakingPoolMapping) (pb : DelegatorPoolBalanceMetadata)
    (thto : TableHandleToOwner) (tokens_claimed : TokenV1Claimed)
    (tid2 tid3 : TableItemData) (token_id : TokenIdType) (offer : TokenOfferIdType)
    (md : TableMetadataForToken) (v ts idx : Int)
    (h1 : AssocMap.lookup apsp (env.standardize_address del1.handle) = some pb)
    (h2data : del2.data = some tid2)
    (h2parse : TokenWriteSet.from_table_item_type p tid2.key_type tid2.key v
      = some (some (TokenWriteSet.TokenId token_id)))
    (h3data : del3.data = some tid3)
    (h3parse : TokenWriteSet.from_table_item_type p tid3.key_type tid3.key v
      = some (some (TokenWriteSet.TokenOfferId offer)))
    (hmeta : AssocMap.lookup thto (env.standardize_address del3.handle) = some md) :
    (CurrentDelegatorBalance.get_active_share_from_delete_table_item env del1 v idx apsp
        ts).map (fun o => o.map (fun bc => (bc.1.shares, bc.2.shares)))
      = some (some (0, 0)) ∧
    (Token.from_delete_table_item env p tenv del2 v ts thto =
      match tenv.tokenOwnership_from_token (Token.zeroed_delete_token env token_id v ts)
          tid2.key_type tid2.key 0 del2.handle thto with
      | none => none
      | some r =>
        some (some (Token.zeroed_delete_token env token_id v ts,
          (match r with
           | some (ow, cow) => (some ow, cow)
           | none => (none, none)).1,
          (match r with
           | some (ow, cow) => (some ow, cow)
           | none => (none, none)).2))) ∧
    (Token.zeroed_delete_token env token_id v ts).token_properties = JsonValue.null ∧
    (CurrentTokenPendingClaim.from_delete_table_item env p del3 v ts thto
        tokens_claimed).map (fun o => o.map (fun claim => claim.amount))
      = some (some 0) := by
  refine ⟨?_, ?_, rfl, ?_⟩
  · simp [CurrentDelegatorBalance.get_active_share_from_delete_table_item, h1]
  · simp only [Token.from_delete_table_item, h2data, h2parse, Token.zeroed_delete_token]
  · simp [CurrentTokenPendingClaim.from_delete_table_item, h3data, h3parse, hmeta]

def tokenId0 : TokenIdType := ⟨⟨"C", "Col", "N"⟩, 1⟩

def offer0 : TokenOfferIdType := ⟨"TO", tokenId0⟩

def pTok : TokenParsers where
  parseTokenDataId := fun _ => none
  parseTokenId := fun s => if s = "TID" then some tokenId0 else none
  parseTokenData := fun _ => none
  parseToken := fun _ => none
  parseCollectionData := fun _ => none
  parseTokenOfferId := fun s => if s = "OFF" then some offer0 else none

def del1c : DeleteTableItem := { handle := "H", key := "D", data := none }

def tid2c : TableItemData :=
  { key := "TID", key_type := "0x3::token::TokenId", value := "", value_type := "" }

def del2c : DeleteTableItem := { handle := "T2", key := "TID", data := some tid2c }

def tid3c : TableItemData :=
  { key := "OFF", key_type := "0x3::token_transfers::TokenOfferId", value := "",
    value_type := "" }

def del3c : DeleteTableItem := { handle := "T3", key := "OFF", data := some tid3c }

def md0 : TableMetadataForToken := ⟨"OWNER", "0x3::token_transfers::PendingClaims"⟩

def thtoC : TableHandleToOwner := ⟨[("T3", md0)]⟩

/-- Witness for `delete_represented_as_zeroed_delta` on concrete deletes:
zero shares for the delegator delete, zero amount for the pending claim. -/
theorem delete_represented_as_zeroed_delta_witness :
    (CurrentDelegatorBalance.get_active_share_from_delete_table_item env0 del1c 5 0
        apsp0 0).map (fun o => o.map (fun bc => (bc.1.shares, bc.2.shares)))
      = some (some (0, 0)) ∧
    (CurrentTokenPendingClaim.from_delete_table_item env0 pTok del3c 5 0 thtoC
        AssocMap.empty).map (fun o => o.map (fun claim => claim.amount))
      = some (some 0) := by
  have h := delete_represented_as_zeroed_delta env0 pTok tenv0 del1c del2c del3c apsp0
    poolMeta0 thtoC AssocMap.empty tid2c tid3c tokenId0 offer0 md0 5 0 0 rfl rfl
    (by decide) rfl (by decide) rfl
  exact ⟨h.1, h.2.2.2⟩

/-- Properties preserved by folding map inserts. -/
theorem foldl_insert_preserve {κ α β : Type} (P : κ × α → Prop)
    (f : AssocMap κ α → β → AssocMap κ α)
    (hf : ∀ acc b kv, kv ∈ (f acc b).entries → kv ∈ acc.entries ∨ P kv) :
    ∀ (l : List β) (acc : AssocMap κ α), (∀ kv ∈ acc.entries, P kv) →
      ∀ kv ∈ (l.foldl f acc).entries, P kv := by
  intro l
  induction l with
  | nil => intro acc hacc kv hkv; exact hacc kv hkv
  | cons b rest ih =>
    intro acc hacc kv hkv
    refine ih (f acc b) ?_ kv hkv
    intro kv2 hkv2
    rcases hf acc b kv2 hkv2 with h | h
    · exact hacc kv2 h
    · exact h

/-- C5: when the in-batch `ReferenceContext` holds the key, the persisted
fallback read is never issued: the three callers produce an empty retry
trace, their result does not depend on the connection, and the produced rows
take their context value from the in-memory mapping. -/
theorem inbatch_hit_skips_db_lookup (env : SdkEnv) (p : TokenParsers)
    (sp : StakeParsers) (conn conn2 : DbConn) (w1 w2 w3 : WriteTableItem)
    (tid1 tid2 : TableItemData) (cdata : CollectionDataType)
    (vec : List VoteDelegationVector) (thto : TableHandleToOwner)
    (md : TableMetadataForToken) (vdmap : VoteDelegationTableHandleToPool)
    (pool_addr : String) (ipsp : ShareToStakingPoolMapping) (isp : ShareToPoolMapping)
    (pb : PoolBalanceMetadata) (mdp : DelegatorPoolBalanceMetadata)
    (n d : Nat) (v ts idx : Int)
    (h1data : w1.data = some tid1)
    (h1parse : TokenWriteSet.from_table_item_type p tid1.value_type tid1.value v
      = some (some (TokenWriteSet.CollectionData cdata)))
    (h1look : AssocMap.lookup thto (env.standardize_address w1.handle) = some md)
    (h2data : w2.data = some tid2)
    (h2parse : VoteDelegationTableItem.from_table_item_type sp tid2.value_type
      tid2.value v = some (some (VoteDelegationTableItem.VoteDelegationVector vec)))
    (h2look : AssocMap.lookup vdmap (env.standardize_address w2.handle)
      = some pool_addr)
    (h3isp : AssocMap.lookup isp (env.standardize_address w3.handle) = some pb)
    (h3ipsp : AssocMap.lookup ipsp pb.parent_table_handle = some mdp) :
    ((CollectionData.from_write_table_item env p w1 v ts thto conn n d).1 = [] ∧
      (CollectionData.from_write_table_item env p w1 v ts thto conn n d).2.map
        (fun o => o.map (fun pr => pr.1.creator_address))
        = some (some (env.standardize_address (md.get_owner_address env))) ∧
      CollectionData.from_write_table_item env p w1 v ts thto conn n d
        = CollectionData.from_write_table_item env p w1 v ts thto conn2 n d) ∧
    ((CurrentDelegatedVoter.from_write_table_item env sp w2 v ts vdmap conn n d).1
        = [] ∧
      (∀ m, (CurrentDelegatedVoter.from_write_table_item env sp w2 v ts vdmap conn
          n d).2 = some m →
        ∀ kv ∈ m.entries, kv.2.delegation_pool_address = pool_addr) ∧
      CurrentDelegatedVoter.from_write_table_item env sp w2 v ts vdmap conn n d
        = CurrentDelegatedVoter.from_write_table_item env sp w2 v ts vdmap conn2 n d) ∧
    ((CurrentDelegatorBalance.get_inactive_share_from_write_table_item env w3 v idx
        ipsp isp conn n d ts).1 = [] ∧
      (∀ b cb, (CurrentDelegatorBalance.get_inactive_share_from_write_table_item env w3
          v idx ipsp isp conn n d ts).2 = some (some (b, cb)) →
        b.pool_address = mdp.staking_pool_address ∧
        cb.pool_address = mdp.staking_pool_address) ∧
      CurrentDelegatorBalance.get_inactive_share_from_write_table_item env w3 v idx
          ipsp isp conn n d ts
        = CurrentDelegatorBalance.get_inactive_share_from_write_table_item env w3 v idx
          ipsp isp conn2 n d ts) := by
  refine ⟨⟨?_, ?_, ?_⟩, ⟨?_, ?_, ?_⟩, ⟨?_, ?_, ?_⟩⟩
  · simp [CollectionData.from_write_table_item, h1data, h1parse, h1look]
  · simp [CollectionData.from_write_table_item, h1data, h1parse, h1look]
  · simp [CollectionData.from_write_table_item, h1data, h1parse, h1look]
  · simp [CurrentDelegatedVoter.from_write_table_item, h2data, h2parse, h2look]
  · intro m hm kv hkv
    simp only [CurrentDelegatedVoter.from_write_table_item, h2data, h2parse, h2look,
      Option.some.injEq] at hm
    subst hm
    by_cases hemp : pool_addr = ""
    · simp only [hemp, if_pos rfl] at hkv
      cases hkv
    · simp only [if_neg hemp] at hkv
      refine foldl_insert_preserve
        (fun kv => kv.2.delegation_pool_address = pool_addr) _ ?_ vec AssocMap.empty
        (fun kv2 hkv2 => absurd hkv2 (by simp [AssocMap.empty])) kv hkv
      intro acc b kv2 hkv2
      simp only [AssocMap.insert] at hkv2
      rcases List.mem_cons.mp hkv2 with h | h
      · right
        subst h
        rfl
      · exact Or.inl h
  · simp [CurrentDelegatedVoter.from_write_table_item, h2data, h2parse, h2look]
  · simp [CurrentDelegatorBalance.get_inactive_share_from_write_table_item, h3isp,
      h3ipsp]
  · intro b cb hbc
    simp only [CurrentDelegatorBalance.get_inactive_share_from_write_table_item, h3isp,
      h3ipsp] at hbc
    cases hdv : w3.decoded_value with
    | none =>
      simp only [hdv, Option.map_some'] at hbc
      cases hbc
    | some raw =>
      simp only [hdv, Option.map_some'] at hbc
      cases hparse : env.parse_bigdecimal raw with
      | none =>
        simp only [hparse] at hbc
        cases hbc
      | some q =>
        simp only [hparse, Option.some.injEq, Prod.mk.injEq] at hbc
        obtain ⟨hb, hcb⟩ := hbc
        constructor
        · rw [show b = _ from hb.symm]
        · rw [show cb = _ from hcb.symm]
  · simp [CurrentDelegatorBalance.get_inactive_share_from_write_table_item, h3isp,
      h3ipsp]

def cdata0 : CollectionDataType :=
  { description := "desc", maximum := 1, mutability_config := ⟨false, false, false⟩,
    name := "Col", supply := 1, uri := "u" }

def pCol : TokenParsers where
  parseTokenDataId := fun _ => none
  parseTokenId := fun _ => none
  parseTokenData := fun _ => none
  parseToken := fun _ => none
  parseCollectionData := fun s => if s = "CD" then some cdata0 else none
  parseTokenOfferId := fun _ => none

def tid1w : TableItemData :=
  { key := "", key_type := "", value := "CD", value_type := "0x3::token::CollectionData" }

def w1w : WriteTableItem :=
  { handle := "HC", key := "", data := some tid1w, decoded_key := "",
    decoded_value := none }

def w2w : WriteTableItem :=
  { handle := "HV", key := "", data := some tidVote, decoded_key := "",
    decoded_value := none }

def w3w : WriteTableItem :=
  { handle := "W2", key := "D", data := none, decoded_key := "D",
    decoded_value := some "10" }

def thtoW : TableHandleToOwner := ⟨[("HC", md0)]⟩

def vdW : VoteDelegationTableHandleToPool := ⟨[("HV", "POOL")]⟩

def ipspW : ShareToStakingPoolMapping := ⟨[("PH", poolMeta0)]⟩

/-- Witness for `inbatch_hit_skips_db_lookup` on concrete in-batch hits:
empty retry traces and the mapped creator value. -/
theorem inbatch_hit_skips_db_lookup_witness :
    (CollectionData.from_write_table_item env0 pCol w1w 5 0 thtoW connAllFail 3 7).1
      = [] ∧
    (CollectionData.from_write_table_item env0 pCol w1w 5 0 thtoW connAllFail 3 7).2.map
      (fun o => o.map (fun pr => pr.1.creator_address)) = some (some "OWNER") ∧
    (CurrentDelegatorBalance.get_inactive_share_from_write_table_item env0 w3w 5 0
      ipspW ispC connAllFail 3 7 0).1 = [] := by
  have h := inbatch_hit_skips_db_lookup env0 pCol sp0 connAllFail connAllFail w1w w2w
    w3w tid1w tidVote cdata0 [] thtoW md0 vdW "POOL" ipspW ispC pbX poolMeta0 3 7 5 0 0
    rfl (by decide) rfl rfl (by decide) rfl rfl rfl
  exact ⟨h.1.1, h.1.2.1, h.2.2.1⟩

/-- Protobuf `MoveType.content`: only the struct tag's address is read by
`CoinInfoType::from_move_type`; every other content kind is collapsed. -/
inductive MoveTypeContent : Type where
  | Struct (address : String)
  | OtherContent
  deriving DecidableEq, Repr

/-- Protobuf `MoveType` (the `content` oneof is optional). -/
structure MoveType where
  content : Option MoveTypeContent
  deriving DecidableEq, Repr

/-- The regex `(<(.*)>)` of `coin_utils.rs` applied to `move_type_str`:
greedy `.*`, so group 2 is the text strictly between the first `<` and the
last `>`; no match when `<` is missing or no `>` follows it. -/
def regexCaptureGeneric (s : String) : Option String :=
  let cs := s.toList
  match cs.findIdx? (fun c => c = '<') with
  | none => none
  | some i =>
    match cs.reverse.findIdx? (fun c => c = '>') with
    | none => none
    | some jr =>
      let j := cs.length - 1 - jr
      if i < j then some (String.mk ((cs.drop (i + 1)).take (j - i - 1)))
      else none

/-- `CoinInfoType` (`coin_utils.rs`). -/
structure CoinInfoType where
  coin_type : String
  creator_address : String
  deriving DecidableEq, Repr

/-- `CoinInfoType::from_move_type` (`coin_utils.rs`): extract `T` from
`0x1::coin::CoinInfo<T>` via the regex; a non-struct move type or a type
string without the generic parameter hits `panic!` (`none`). -/
def CoinInfoType.from_move_type (move_type : MoveType) (move_type_str : String)
    (_txn_version _wsc_index : Int) : Option CoinInfoType :=
  match move_type.content with
  | none => none
  | some (MoveTypeContent.Struct address) =>
    match regexCaptureGeneric move_type_str with
    | none => none
    | some coin_type => some { coin_type := coin_type, creator_address := address }
  | some MoveTypeContent.OtherContent => none

def txnNoData : Transaction :=
  { version := 3, timestamp := some 0, info := some ⟨[]⟩, txn_data := none }

def txnNoInfo : Transaction :=
  { version := 4, timestamp := some 0, info := none, txn_data := some TxnData.User }

/-- C6 counterexample: a raw transaction missing the `txn_data`
sub-structure is not fatal — `Token::from_transaction` logs a warning,
bumps a counter, and returns successfully with empty row sets instead of
aborting the run. -/
theorem malformed_input_not_always_fatal_counterexample :
    Token.from_transaction env0 p0 tenv0 connAllFail txnNoData AssocMap.empty 3 7
      = some TokenFromTransactionOut.empty := rfl

/-- C6 amended: structurally incomplete input is fatal in some decoders but
not all.  A transaction without `txn_data` is skipped with empty outputs
(never fatal); a user transaction whose `info` is missing panics; and
`CoinInfoType::from_move_type` panics on a non-matching type string or a
non-struct move type. -/
theorem malformed_input_policy (env : SdkEnv) (p : TokenParsers) (tenv : TokenEnv)
    (conn : DbConn) (thto : TableHandleToOwner) (n d : Nat) (txn1 txn2 : Transaction)
    (ts0 : Int) (mt : MoveType) (s : String) (addr : String) (v i : Int)
    (h1 : txn1.txn_data = none)
    (h2data : txn2.txn_data = some TxnData.User) (h2ts : txn2.timestamp = some ts0)
    (h2info : txn2.info = none)
    (hmt : mt.content = some (MoveTypeContent.Struct addr))
    (hre : regexCaptureGeneric s = none) :
    Token.from_transaction env p tenv conn txn1 thto n d
      = some TokenFromTransactionOut.empty ∧
    Token.from_transaction env p tenv conn txn2 thto n d = none ∧
    CoinInfoType.from_move_type mt s v i = none ∧
    (∀ mt2 : MoveType, mt2.content = some MoveTypeContent.OtherContent →
      CoinInfoType.from_move_type mt2 s v i = none) := by
  refine ⟨?_, ?_, ?_, ?_⟩
  · simp [Token.from_transaction, h1]
  · simp [Token.from_transaction, h2data, h2ts, h2info]
  · simp [CoinInfoType.from_move_type, hmt, hre]
  · intro mt2 hmt2
    simp [CoinInfoType.from_move_type, hmt2]

/-- Witness for `malformed_input_policy`: the literal type string
`0x1::coin::CoinInfo` (no generic parameter) panics while the
`txn_data`-less transaction is skipped. -/
theorem malformed_input_policy_witness :
    Token.from_transaction env0 p0 tenv0 connAllFail txnNoData AssocMap.empty 3 7
      = some TokenFromTransactionOut.empty ∧
    CoinInfoType.from_move_type ⟨some (MoveTypeContent.Struct "0x1")⟩
      "0x1::coin::CoinInfo" 3 0 = none := by
  have h := malformed_input_policy env0 p0 tenv0 connAllFail AssocMap.empty 3 7
    txnNoData txnNoInfo
    0 ⟨some (MoveTypeContent.Struct "0x1")⟩ "0x1::coin::CoinInfo" "0x1" 3 0
    rfl rfl rfl rfl rfl (by decide)
  exact ⟨h.1, h.2.2.1⟩

/-- SDK `TransactionContext` metadata: the batch's version-range tag. -/
structure TransactionMetadata where
  start_version : Nat
  end_version : Nat
  deriving DecidableEq, Repr

/-- SDK `TransactionContext`. -/
structure TransactionContext (α : Type) where
  data : α
  metadata : TransactionMetadata
  deriving DecidableEq, Repr

/-- Modelled from the spec: `UserTransaction` row
(`user_transactions.rs`, not under `src/`); opaque payload. -/
structure UserTransaction where
  data : String
  deriving DecidableEq, Repr

/-- Modelled from the spec: `Signature` row (`signatures.rs`, not under
`src/`); opaque payload. -/
structure Signature where
  data : String
  deriving DecidableEq, Repr

/-- Modelled from the spec: `ParquetUserTransaction`; opaque payload. -/
structure ParquetUserTransaction where
  data : String
  deriving DecidableEq, Repr

/-- Modelled from the spec: `ParquetSignature`; opaque payload. -/
structure ParquetSignature where
  data : String
  deriving DecidableEq, Repr

/-- Modelled from the spec: the per-transaction decoders and parquet
conversions used by the user-transaction extractor (their definitions are
not under `src/`). -/
structure UserTxnEnv where
  toUserTxn : Transaction → Option UserTransaction
  toSignatures : Transaction → List Signature
  parquetUserTransaction_from : UserTransaction → ParquetUserTransaction
  parquetSignature_from : Signature → ParquetSignature

/-- Modelled from the spec: `user_transaction_parse` (not under `src/`); per
the §6 extractor contract it turns the batch's raw transactions into typed
rows transaction by transaction, without reordering. -/
def user_transaction_parse (ue : UserTxnEnv) (txns : List Transaction) :
    List UserTransaction × List Signature :=
  (txns.filterMap ue.toUserTxn, (txns.map ue.toSignatures).flatten)

/-- The two parquet table kinds this extractor emits (`ParquetTypeEnum`,
restricted). -/
inductive ParquetTypeEnum : Type where
  | UserTransactions
  | Signatures
  deriving DecidableEq, Repr

/-- `ParquetTypeStructs`, restricted to the two variants this extractor
emits. -/
inductive ParquetTypeStructs : Type where
  | UserTransaction (l : List ParquetUserTransaction)
  | Signature (l : List ParquetSignature)
  deriving DecidableEq, Repr

abbrev ParquetTypeMap := AssocMap ParquetTypeEnum ParquetTypeStructs

/-- Modelled from the spec: `add_to_map_if_opted_in_for_backfill`
(`parquet_utils/util.rs`, not under `src/`): add each data type whose table
is opted in; the `TableFlags` opt-in logic (including "empty set means every
table") is abstracted into the predicate. -/
def add_to_map_if_opted_in_for_backfill (opt_in_tables : ParquetTypeEnum → Bool)
    (map : ParquetTypeMap)
    (data_types : List (ParquetTypeEnum × ParquetTypeStructs)) : ParquetTypeMap :=
  data_types.foldl
    (fun m e => if opt_in_tables e.1 then AssocMap.insert m e.1 e.2 else m) map

/-- `ParquetUserTransactionExtractor::process`
(`parquet_user_transaction_extractor.rs`): parse the batch, convert the rows
to parquet form, populate the opted-in tables, and return a context carrying
the input's `metadata` unchanged. -/
def ParquetUserTransactionExtractor.process (ue : UserTxnEnv)
    (opt_in_tables : ParquetTypeEnum → Bool)
    (transactions : TransactionContext (List Transaction)) :
    Option (TransactionContext ParquetTypeMap) :=
  let pr := user_transaction_parse ue transactions.data
  let parquet_user_txns := pr.1.map ue.parquetUserTransaction_from
  let parquet_signatures := pr.2.map ue.parquetSignature_from
  let data_types :=
    [(ParquetTypeEnum.UserTransactions,
        ParquetTypeStructs.UserTransaction parquet_user_txns),
     (ParquetTypeEnum.Signatures, ParquetTypeStructs.Signature parquet_signatures)]
  let map := add_to_map_if_opted_in_for_backfill opt_in_tables AssocMap.empty data_types
  some { data := map, metadata := transactions.metadata }

/-- C7: the extractor's output context carries exactly the input context's
metadata (same start and end version), and whatever rows appear in the
output map are derived from the input transactions in their given order. -/
theorem extractor_preserves_metadata_and_order (ue : UserTxnEnv)
    (opt_in_tables : ParquetTypeEnum → Bool)
    (ctx : TransactionContext (List Transaction))
    (out : TransactionContext ParquetTypeMap)
    (h : ParquetUserTransactionExtractor.process ue opt_in_tables ctx = some out) :
    out.metadata = ctx.metadata ∧
    (∀ v, AssocMap.lookup out.data ParquetTypeEnum.UserTransactions = some v →
      v = ParquetTypeStructs.UserTransaction
        ((ctx.data.filterMap ue.toUserTxn).map ue.parquetUserTransaction_from)) ∧
    (∀ v, AssocMap.lookup out.data ParquetTypeEnum.Signatures = some v →
      v = ParquetTypeStructs.Signature
        (((ctx.data.map ue.toSignatures).flatten).map ue.parquetSignature_from)) := by
  simp only [ParquetUserTransactionExtractor.process, Option.some.injEq] at h
  subst h
  refine ⟨rfl, ?_, ?_⟩
  · intro v hv
    cases hU : opt_in_tables ParquetTypeEnum.UserTransactions <;>
      cases hS : opt_in_tables ParquetTypeEnum.Signatures <;>
      simp_all [add_to_map_if_opted_in_for_backfill, AssocMap.lookup, assocFind,
        AssocMap.insert, AssocMap.empty, user_transaction_parse]
  · intro v hv
    cases hU : opt_in_tables ParquetTypeEnum.UserTransactions <;>
      cases hS : opt_in_tables ParquetTypeEnum.Signatures <;>
      simp_all [add_to_map_if_opted_in_for_backfill, AssocMap.lookup, assocFind,
        AssocMap.insert, AssocMap.empty, user_transaction_parse]

def ue0 : UserTxnEnv where
  toUserTxn := fun _ => some ⟨"u"⟩
  toSignatures := fun _ => []
  parquetUserTransaction_from := fun u => ⟨u.data⟩
  parquetSignature_from := fun s => ⟨s.data⟩

def ctx0 : TransactionContext (List Transaction) := ⟨[txnA], ⟨100, 102⟩⟩

/-- Witness for `extractor_preserves_metadata_and_order` on a concrete
single-transaction context. -/
theorem extractor_preserves_metadata_and_order_witness :
    (ParquetUserTransactionExtractor.process ue0 (fun _ => true) ctx0).map
      (fun o => o.metadata) = some ⟨100, 102⟩ := by
  cases hp : ParquetUserTransactionExtractor.process ue0 (fun _ => true) ctx0 with
  | none => exact absurd hp (by decide)
  | some out =>
    have h := extractor_preserves_metadata_and_order ue0 (fun _ => true) ctx0 out hp
    simp [h.1, ctx0]

/-- `CEDRA_COIN_SUPPLY_TABLE_HANDLE` (`coin_supply.rs`). -/
def CEDRA_COIN_SUPPLY_TABLE_HANDLE : String :=
  "0x1b854694ae746cdbd8d44186ca4929b2b337df21d1c74633be19b2710552fdca"

/-- `CEDRA_COIN_SUPPLY_TABLE_KEY` (`coin_supply.rs`). -/
def CEDRA_COIN_SUPPLY_TABLE_KEY : String :=
  "0x619dc29a0aac8fa146714058e8dd6d2d0f3bdf5f6331907bf91f3acd81e6935"

/-- `coin_supply` row (`coin_supply.rs`). -/
structure CoinSupply where
  transaction_version : Int
  coin_type_hash : String
  coin_type : String
  supply : Rat
  transaction_timestamp : Int
  transaction_epoch : Int
  deriving DecidableEq, Repr

/-- `CoinSupply::from_write_table_item` (`coin_supply.rs`): `Ok(None)`
unless the item is the hardcoded cedra coin supply aggregator cell
(`address`/`u128` typed, the hardcoded handle, the hardcoded decoded key);
on a full match the supply is parsed and the row's `coin_type` is the cedra
coin type constant.  `decoded_key` models
`table_item.decoded_key.as_str().unwrap()`. -/
def CoinSupply.from_write_table_item (env : SdkEnv) (write_table_item : WriteTableItem)
    (txn_version txn_timestamp txn_epoch : Int) : Option (Option CoinSupply) :=
  match write_table_item.data with
  | none => some none
  | some data =>
    if ¬ (data.key_type = "address" ∧ data.value_type = "u128") then some none
    else if write_table_item.handle ≠ CEDRA_COIN_SUPPLY_TABLE_HANDLE then some none
    else if write_table_item.decoded_key ≠ CEDRA_COIN_SUPPLY_TABLE_KEY then some none
    else
      match write_table_item.decoded_value with
      | none => none
      | some raw =>
        match env.parse_bigdecimal raw with
        | none => none
        | some supply =>
          some (some
            { transaction_version := txn_version
              coin_type_hash := env.hash_str env.cedra_coin_type_str
              coin_type := env.cedra_coin_type_str
              supply := supply
              transaction_timestamp := txn_timestamp
              transaction_epoch := txn_epoch })

/-- The guard of `CoinSupply::from_write_table_item`: the item is the
hardcoded cedra coin supply aggregator cell. -/
def coinSupplyAllHold (w : WriteTableItem) : Prop :=
  match w.data with
  | none => False
  | some data =>
    data.key_type = "address" ∧ data.value_type = "u128" ∧
      w.handle = CEDRA_COIN_SUPPLY_TABLE_HANDLE ∧
      w.decoded_key = CEDRA_COIN_SUPPLY_TABLE_KEY

instance (w : WriteTableItem) : Decidable (coinSupplyAllHold w) := by
  unfold coinSupplyAllHold
  cases w.data <;> infer_instance

/-- C9: `CoinSupply::from_write_table_item` returns `Ok(None)` for every
write table item that is not the hardcoded cedra coin supply aggregator
cell, and every produced row comes from that cell and carries
`CEDRA_COIN_TYPE_STR` as its coin type. -/
theorem coin_supply_only_hardcoded_aggregator (env : SdkEnv) (w : WriteTableItem)
    (v ts e : Int) :
    (¬ coinSupplyAllHold w → CoinSupply.from_write_table_item env w v ts e = some none) ∧
    (∀ row, CoinSupply.from_write_table_item env w v ts e = some (some row) →
      coinSupplyAllHold w ∧ row.coin_type = env.cedra_coin_type_str) := by
  constructor
  · intro hnot
    unfold CoinSupply.from_write_table_item
    cases hd : w.data with
    | none => rfl
    | some data =>
      simp only [coinSupplyAllHold, hd] at hnot
      by_cases h1 : data.key_type = "address" ∧ data.value_type = "u128"
      · by_cases h2 : w.handle = CEDRA_COIN_SUPPLY_TABLE_HANDLE
        · by_cases h3 : w.decoded_key = CEDRA_COIN_SUPPLY_TABLE_KEY
          · exact absurd ⟨h1.1, h1.2, h2, h3⟩ hnot
          · simp [h1.1, h1.2, h2, h3]
        · simp [h1.1, h1.2, h2]
      · simp [h1]
  · intro row hrow
    unfold CoinSupply.from_write_table_item at hrow
    cases hd : w.data with
    | none =>
      simp only [hd] at hrow
      cases hrow
    | some data =>
      simp only [hd] at hrow
      by_cases h1 : data.key_type = "address" ∧ data.value_type = "u128"
      · by_cases h2 : w.handle = CEDRA_COIN_SUPPLY_TABLE_HANDLE
        · by_cases h3 : w.decoded_key = CEDRA_COIN_SUPPLY_TABLE_KEY
          · refine ⟨by simp only [coinSupplyAllHold, hd]; exact ⟨h1.1, h1.2, h2, h3⟩, ?_⟩
            rw [if_neg (by simp [h1.1, h1.2]), if_neg (by simp [h2]),
              if_neg (by simp [h3])] at hrow
            cases hdv : w.decoded_value with
            | none => simp [hdv] at hrow
            | some raw =>
              simp only [hdv] at hrow
              cases hparse : env.parse_bigdecimal raw with
              | none => simp [hparse] at hrow
              | some supply =>
                simp only [hparse, Option.some.injEq] at hrow
                subst hrow
                rfl
          · simp [h1.1, h1.2, h2, h3] at hrow
        · simp [h1.1, h1.2, h2] at hrow
      · simp [h1] at hrow

def wGood : WriteTableItem :=
  { handle := CEDRA_COIN_SUPPLY_TABLE_HANDLE, key := "",
    data := some ⟨"", "address", "", "u128"⟩,
    decoded_key := CEDRA_COIN_SUPPLY_TABLE_KEY, decoded_value := some "10" }

def wBad : WriteTableItem :=
  { handle := "0xdead", key := "", data := some ⟨"", "address", "", "u128"⟩,
    decoded_key := CEDRA_COIN_SUPPLY_TABLE_KEY, decoded_value := some "10" }

/-- Witness for `coin_supply_only_hardcoded_aggregator`: a wrong-handle item
yields `Ok(None)`; the hardcoded cell yields a row whose coin type is the
cedra coin constant. -/
theorem coin_supply_only_hardcoded_aggregator_witness :
    CoinSupply.from_write_table_item env0 wBad 5 0 1 = some none ∧
    (CoinSupply.from_write_table_item env0 wGood 5 0 1).map
      (fun o => o.map (fun r => r.coin_type)) = some (some env0.cedra_coin_type_str) := by
  constructor
  · exact (coin_supply_only_hardcoded_aggregator env0 wBad 5 0 1).1 (by decide)
  · cases hr : CoinSupply.from_write_table_item env0 wGood 5 0 1 with
    | none => exact absurd hr (by decide)
    | some o =>
      cases o with
      | none => exact absurd hr (by decide)
      | some row =>
        have h := (coin_supply_only_hardcoded_aggregator env0 wGood 5 0 1).2 row hr
        simp [h.2]

/-- C10: `get_existence_by_pk` conflates database errors with non-existence
— a diesel `Err` (including `NotFound`) and transport failures travel the
same branch, so when every attempt fails it returns `false`; consequently
`get_delegators_pre_contract_deployment` still emits the default-voter row
(voter = pending voter = the delegator itself) for a delegator whose
persisted row simply could not be read. -/
theorem get_existence_conflates_errors (env : SdkEnv) (conn : DbConn)
    (w : WriteTableItem) (apsp : ShareToStakingPoolMapping)
    (prev : CurrentDelegatedVoterMap) (b : DelegatorBalance)
    (ab : CurrentDelegatorBalance) (n d : Nat) (v ts : Int)
    (hact : CurrentDelegatorBalance.get_active_share_from_write_table_item env w v 0
      apsp ts = some (some (b, ab)))
    (hprev : AssocMap.lookup prev (ab.pool_address, ab.delegator_address) = none)
    (hfail : ∀ i, conn.get_voter_by_pk i ab.delegator_address ab.pool_address = none) :
    (∀ da pa, (∀ i, conn.get_voter_by_pk i da pa = none) →
      (CurrentDelegatedVoter.get_existence_by_pk conn da pa n d).2 = false) ∧
    (CurrentDelegatedVoter.get_delegators_pre_contract_deployment env w v ts apsp prev
        conn n d).2.map (fun o => o.map (fun r => (r.voter, r.pending_voter)))
      = some (some (some ab.delegator_address, some ab.delegator_address)) := by
  have hbase := retryLoop_allFail_zero
    (fun i => conn.get_voter_by_pk i ab.delegator_address ab.pool_address) hfail n d
  constructor
  · intro da pa hf
    have hb := retryLoop_allFail_zero (fun i => conn.get_voter_by_pk i da pa) hf n d
    simp [CurrentDelegatedVoter.get_existence_by_pk, hb]
  · simp [CurrentDelegatedVoter.get_delegators_pre_contract_deployment, hact, hprev,
      CurrentDelegatedVoter.get_existence_by_pk, hbase]

def bHistA : DelegatorBalance :=
  { transaction_version := 5, write_set_change_index := 0, delegator_address := "D",
    pool_address := "P", pool_type := "active_shares", table_handle := "H",
    shares := (10 : Rat) / poolMeta0.scaling_factor, parent_table_handle := "H",
    block_timestamp := 0 }

/-- Witness for `get_existence_conflates_errors`: on an always-failing
connection the default-voter row is emitted for delegator `"D"`. -/
theorem get_existence_conflates_errors_witness :
    (CurrentDelegatedVoter.get_delegators_pre_contract_deployment env0 itemA 5 0 apsp0
        AssocMap.empty connAllFail 3 7).2.map
      (fun o => o.map (fun r => (r.voter, r.pending_voter)))
      = some (some (some "D", some "D")) := by
  have h := (get_existence_conflates_errors env0 connAllFail itemA apsp0 AssocMap.empty
    bHistA deltaA 3 7 5 0 rfl rfl (fun _ => rfl)).2
  simpa using h
